import Mathlib

/-!
Verification of the PDCP transmitter/receiver entity state machines
(`pdcp_entity_tx.cpp`, `pdcp_entity_rx.cpp`) against their design
specification.  The C++ code is shallowly embedded: machine integers are
`Nat` with explicit `% 2^32` where 32-bit wraparound matters, the SDU
window arena is a function from slot index to an optional entry, and the
external security primitives and fallible buffer operations are
parameters of the embedding.
-/

set_option maxHeartbeats 1000000

namespace Pdcp

/-! ## Count arithmetic

Modelled from the spec: the helpers `SN`, `HFN`, `COUNT`, `window_size`
and `pdcp_sn_cardinality` live in `pdcp_entity_tx_rx_base.h` /
`pdcp.h`, which are not part of the provided sources.  The spec states:
COUNT is a 32-bit value `(HFN, SN)` where SN occupies the configured
low-order bits (12 or 18) and HFN the remaining high-order bits, and the
window size is `2^(SN_BITS-1)`. -/

/-- One past the largest 32-bit unsigned value: `2^32`. -/
def U32 : Nat := 2 ^ 32

/-- Modelled from the spec: `pdcp_sn_cardinality`, the size of the SN space. -/
def sn_cardinality (snSize : Nat) : Nat := 2 ^ snSize

/-- Modelled from the spec: `pdcp_window_size`, `Window_Size = 2^(SN_BITS-1)`. -/
def window_size (snSize : Nat) : Nat := 2 ^ (snSize - 1)

/-- Modelled from the spec: `SN(count)`, the low-order `snSize` bits of a COUNT. -/
def SN (snSize c : Nat) : Nat := c % 2 ^ snSize

/-- Modelled from the spec: `HFN(count)`, the high-order bits of a COUNT. -/
def HFN (snSize c : Nat) : Nat := c / 2 ^ snSize

/-- Modelled from the spec: `COUNT(hfn, sn)`, packing HFN and SN into a
32-bit value (truncated to 32 bits as in the `uint32_t` source type). -/
def COUNT (snSize hfn sn : Nat) : Nat := (hfn * 2 ^ snSize + sn) % U32

/-- Embedding of the COUNT resolution in `pdcp_entity_rx::handle_data_pdu`
(lines 151-160): resolve a received truncated SN against `rx_deliv`.
The first comparison is done in signed 64-bit arithmetic in the source,
hence the `Int` cast; the `HFN - 1` underflow wraps as `uint32_t`. -/
def rcvd_count_rx (snSize rxDeliv sn : Nat) : Nat :=
  let rcvdHfn :=
    if (sn : Int) < (SN snSize rxDeliv : Int) - (window_size snSize : Int) then
      (HFN snSize rxDeliv + 1) % U32
    else if sn ≥ SN snSize rxDeliv + window_size snSize then
      (HFN snSize rxDeliv + U32 - 1) % U32
    else
      HFN snSize rxDeliv
  COUNT snSize rcvdHfn sn

/-- Embedding of the core of `pdcp_entity_tx::notification_count_estimation`
(lines 559-578): resolve a notified truncated SN against the lower edge
of the transmit window. -/
def notification_count_from_lower (snSize txLower sn : Nat) : Nat :=
  let notificationHfn :=
    if (sn : Int) < (SN snSize txLower : Int) - (window_size snSize : Int) then
      (HFN snSize txLower + 1) % U32
    else if sn ≥ SN snSize txLower + window_size snSize then
      (HFN snSize txLower + U32 - 1) % U32
    else
      HFN snSize txLower
  COUNT snSize notificationHfn sn

/-- The disambiguation window around a reference COUNT `r`: all 32-bit
COUNTs `c` with `c ∈ [r - window_size, r + window_size)` modulo `2^32`. -/
def in_resolution_window (snSize r c : Nat) : Prop :=
  (c + window_size snSize + U32 - r) % U32 < sn_cardinality snSize

instance (snSize r c : Nat) : Decidable (in_resolution_window snSize r c) := by
  unfold in_resolution_window
  infer_instance

/-! ## SDU window

Modelled from the spec: the `sdu_window_impl` container
(`lib/pdcp/../support/sdu_window_impl.h`) is not part of the provided
sources.  The spec describes it as a fixed-capacity arena of
`window_size` optional slots indexed by `count mod capacity`, with the
stored COUNT kept per slot so that stale entries from a previous SN wrap
can be told apart from live ones. -/

/-- An SDU window: a fixed arena of slots, each optionally occupied. -/
def Window (α : Type) := Nat → Option α

/-- `sdu_window::has_sn`: is the slot for this COUNT occupied? -/
def has_sn {α : Type} (W : Nat) (w : Window α) (c : Nat) : Bool :=
  (w (c % W)).isSome

/-- `sdu_window::operator[]`: the entry stored in the slot of this COUNT. -/
def wnd_get {α : Type} (W : Nat) (w : Window α) (c : Nat) : Option α :=
  w (c % W)

/-- `sdu_window::add_sn` followed by writing the entry fields. -/
def add_sn {α : Type} (W : Nat) (w : Window α) (c : Nat) (v : α) : Window α :=
  fun i => if i = c % W then some v else w i

/-- `sdu_window::remove_sn`. -/
def remove_sn {α : Type} (W : Nat) (w : Window α) (c : Nat) : Window α :=
  fun i => if i = c % W then none else w i

/-- `sdu_window::clear`: the empty window. -/
def empty_window {α : Type} : Window α := fun _ => none

/-- Number of occupied slots in a window of capacity `W`. -/
def window_card {α : Type} (W : Nat) (w : Window α) : Nat :=
  ((List.range W).filter (fun i => (w i).isSome)).length

/-! ## Transmitter entity (`pdcp_entity_tx.cpp`) -/

/-- RLC mode of the bearer (`pdcp_rlc_mode`). -/
inductive PdcpRlcMode : Type
  | um
  | am
deriving DecidableEq

/-- Bearer type (`pdcp_rb_type`). -/
inductive PdcpRbType : Type
  | srb
  | drb
deriving DecidableEq

/-- The transmitter configuration fields used by the TX entity code:
SN size, bearer/RLC type, optional discard timer (milliseconds), the
custom RLC SDU queue limit and the notify/hard maximum COUNT values. -/
structure TxConfig : Type where
  snSize : Nat
  rbType : PdcpRbType
  rlcMode : PdcpRlcMode
  discardTimer : Option Nat
  rlcSduQueue : Nat
  maxCountNotify : Nat
  maxCountHard : Nat

def TxConfig.is_am (cfg : TxConfig) : Bool := cfg.rlcMode = PdcpRlcMode.am

def TxConfig.is_um (cfg : TxConfig) : Bool := cfg.rlcMode = PdcpRlcMode.um

def TxConfig.is_srb (cfg : TxConfig) : Bool := cfg.rbType = PdcpRbType.srb

def TxConfig.is_drb (cfg : TxConfig) : Bool := cfg.rbType = PdcpRbType.drb

/-- The window capacity for this configuration (`window_size`). -/
def TxConfig.W (cfg : TxConfig) : Nat := window_size cfg.snSize

/-- Transmitter entity state: the `pdcp_tx_state` counters, the one-shot
max-COUNT flags and the TX window.  TX window entries only need their
stored COUNT for the properties at hand (the buffered SDU bytes and the
running discard timer are not inspected by any claim). -/
structure TxState : Type where
  txNext : Nat := 0
  txNextAck : Nat := 0
  txTrans : Nat := 0
  maxCountNotified : Bool := false
  maxCountOverflow : Bool := false
  window : Window Nat := empty_window

/-- Environment of one `handle_sdu`/retransmission call: whether the
fallible buffer operations (SDU deep copy, header prepend, security
pipeline) succeed.  These depend on allocation, which is external. -/
structure TxEnv : Type where
  deepCopyOk : Bool := true
  headerOk : Bool := true
  secOk : Bool := true

/-- Observable effects of one transmitter operation. -/
structure TxEv : Type where
  sduDrops : Nat := 0
  protocolFailures : Nat := 0
  maxCountNotifications : Nat := 0
  pdusToLower : List (Nat × Bool) := []
  discardsToLower : List Nat := []
  assignedCounts : List Nat := []

/-- `pdcp_entity_tx::notification_count_estimation` (lines 548-579): the
lower window edge is `tx_next_ack` when a discard timer is configured and
`tx_trans` otherwise. -/
def notification_count_estimation (cfg : TxConfig) (s : TxState) (sn : Nat) : Nat :=
  let txLower := if cfg.discardTimer.isSome then s.txNextAck else s.txTrans
  notification_count_from_lower cfg.snSize txLower sn

/-- The `tx_next_ack` advance loop at the end of
`pdcp_entity_tx::discard_pdu` (lines 692-695):
`while (tx_next_ack < tx_next && !tx_window->has_sn(tx_next_ack)) tx_next_ack++`. -/
def advance_tx_next_ack (W : Nat) (w : Window Nat) (txNext ack : Nat) : Nat :=
  if _h : ack < txNext ∧ has_sn W w ack = false then
    advance_tx_next_ack W w txNext (ack + 1)
  else
    ack
termination_by txNext - ack
decreasing_by omega

/-- `pdcp_entity_tx::discard_pdu` (lines 671-701).  Returns the updated
state and the truncated SNs notified to the lower layer via
`on_discard_pdu`. -/
def discard_pdu (cfg : TxConfig) (s : TxState) (count : Nat) : TxState × List Nat :=
  if cfg.discardTimer.isNone then (s, [])
  else if count < s.txNextAck ∨ s.txNext ≤ count then (s, [])
  else if has_sn cfg.W s.window count = false then (s, [])
  else
    let w := remove_sn cfg.W s.window count
    let ack := advance_tx_next_ack cfg.W w s.txNext s.txNextAck
    let trans := if s.txTrans < ack then ack else s.txTrans
    ({ s with window := w, txNextAck := ack, txTrans := trans }, [SN cfg.snSize count])

/-- The loop in `pdcp_entity_tx::stop_discard_timer` (lines 657-663):
`while (tx_next_ack <= highest_count) { if has_sn remove_sn; tx_next_ack++ }`.
Returns the final window and `tx_next_ack`. -/
def stop_discard_loop (W highest : Nat) (w : Window Nat) (ack : Nat) :
    Window Nat × Nat :=
  if _h : ack ≤ highest then
    let w' := if has_sn W w ack then remove_sn W w ack else w
    stop_discard_loop W highest w' (ack + 1)
  else
    (w, ack)
termination_by highest + 1 - ack
decreasing_by omega

/-- `pdcp_entity_tx::stop_discard_timer` (lines 644-669). -/
def stop_discard_timer (cfg : TxConfig) (s : TxState) (highest : Nat) : TxState :=
  if cfg.discardTimer.isNone then s
  else if highest < s.txNextAck ∨ s.txNext ≤ highest then s
  else
    let (w, ack) := stop_discard_loop cfg.W highest s.window s.txNextAck
    let trans := if s.txTrans < ack then ack else s.txTrans
    { s with window := w, txNextAck := ack, txTrans := trans }

/-- The TX-window insertion step of `pdcp_entity_tx::handle_sdu`
(lines 108-133): when a discard timer is configured, first discard a
stale entry from a previous SN wrap occupying the slot of `tx_next`,
then add the new entry at `tx_next`.  Returns the updated state and the
SNs notified via `on_discard_pdu` by the stale-entry eviction. -/
def tx_window_insert (cfg : TxConfig) (s : TxState) : TxState × List Nat :=
  if cfg.discardTimer.isSome then
    let (s2a, d) :=
      match wnd_get cfg.W s.window s.txNext with
      | some oldCount => discard_pdu cfg s oldCount
      | none => (s, [])
    ({ s2a with window := add_sn cfg.W s2a.window s2a.txNext s2a.txNext }, d)
  else (s, [])

/-- `pdcp_entity_tx::handle_sdu` (lines 27-142). -/
def handle_sdu (cfg : TxConfig) (env : TxEnv) (s : TxState) : TxState × TxEv :=
  if s.txNext < s.txTrans then (s, { sduDrops := 1 })
  else if cfg.rlcSduQueue ≤ s.txNext - s.txTrans then (s, { sduDrops := 1 })
  else if cfg.W - 1 ≤ s.txNext - s.txTrans then (s, { sduDrops := 1 })
  else if cfg.maxCountHard ≤ s.txNext then
    if s.maxCountOverflow then (s, { sduDrops := 1 })
    else ({ s with maxCountOverflow := true }, { sduDrops := 1, protocolFailures := 1 })
  else
    let notify : Bool := cfg.maxCountNotify ≤ s.txNext && !s.maxCountNotified
    let nEv : Nat := if notify then 1 else 0
    let s1 := if notify then { s with maxCountNotified := true } else s
    if cfg.discardTimer.isSome && cfg.is_am && !env.deepCopyOk then
      (s1, { sduDrops := 1, protocolFailures := 1, maxCountNotifications := nEv })
    else if !env.headerOk then
      (s1, { sduDrops := 1, protocolFailures := 1, maxCountNotifications := nEv })
    else if !env.secOk then
      (s1, { sduDrops := 1, protocolFailures := 1, maxCountNotifications := nEv })
    else
      let (s2, disc) := tx_window_insert cfg s1
      ({ s2 with txNext := (s2.txNext + 1) % U32 },
       { maxCountNotifications := nEv,
         pdusToLower := [(s2.txNext, false)],
         discardsToLower := disc,
         assignedCounts := [s2.txNext] })

/-- `pdcp_entity_tx::handle_transmit_notification` (lines 460-489). -/
def handle_transmit_notification (cfg : TxConfig) (s : TxState) (notifSn : Nat) :
    TxState :=
  if sn_cardinality cfg.snSize ≤ notifSn then s
  else
    let notifCount := notification_count_estimation cfg s notifSn
    if notifCount < s.txTrans then s
    else if s.txNext ≤ notifCount then s
    else
      let s' := { s with txTrans := notifCount + 1 }
      if cfg.discardTimer.isNone then s'
      else if cfg.is_um then stop_discard_timer cfg s' notifCount
      else s'

/-- `pdcp_entity_tx::handle_delivery_notification` (lines 491-514). -/
def handle_delivery_notification (cfg : TxConfig) (s : TxState) (notifSn : Nat) :
    TxState :=
  if sn_cardinality cfg.snSize ≤ notifSn then s
  else
    let notifCount := notification_count_estimation cfg s notifSn
    if s.txNext ≤ notifCount then s
    else if cfg.discardTimer.isNone then s
    else if cfg.is_am then stop_discard_timer cfg s notifCount
    else s

/-- The unconditional discard loop of
`pdcp_entity_tx::handle_status_report` (lines 259-262):
`for (count = tx_next_ack; count < fmc; count++) discard_pdu(count)`. -/
def discard_range (cfg : TxConfig) (s : TxState) (count fmc : Nat) :
    TxState × List Nat :=
  if _h : count < fmc then
    let (s', d) := discard_pdu cfg s count
    let (s'', d') := discard_range cfg s' (count + 1) fmc
    (s'', d ++ d')
  else
    (s, [])
termination_by fmc - count
decreasing_by omega

/-- The bitmap walk of `pdcp_entity_tx::handle_status_report`
(lines 264-273): for each remaining bit, advance `fmc` and discard the
COUNT when the bit is set. -/
def apply_bitmap (cfg : TxConfig) (s : TxState) (fmc : Nat) :
    List Bool → TxState × List Nat
  | [] => (s, [])
  | b :: rest =>
    let fmc' := (fmc + 1) % U32
    if b then
      let (s', d) := discard_pdu cfg s fmc'
      let (s'', d') := apply_bitmap cfg s' fmc' rest
      (s'', d ++ d')
    else
      apply_bitmap cfg s fmc' rest

/-- MSB-first interpretation of a list of bits, as read by `bit_decoder`. -/
def bits_to_nat (l : List Bool) : Nat :=
  l.foldl (fun a b => 2 * a + (if b then 1 else 0)) 0

/-- Modelled from the spec: `bit_decoder::unpack` reads the requested
number of bits MSB-first (`srsran/support/bit_encoding.h` is not part of
the provided sources); it fails when the buffer is exhausted. -/
def read_bits (n : Nat) (l : List Bool) : Option (Nat × List Bool) :=
  if n ≤ l.length then some (bits_to_nat (l.take n), l.drop n) else none

/-- `pdcp_entity_tx::handle_status_report` (lines 217-274), taking the
status PDU as its sequence of wire bits: check D/C (= control = 0),
CPT (= status report = 0) and the four reserved bits, read the 32-bit
FMC, discard everything in `[tx_next_ack, FMC)` and walk the bitmap. -/
def handle_status_report (cfg : TxConfig) (s : TxState) (wire : List Bool) :
    TxState × List Nat :=
  match read_bits 1 wire with
  | none => (s, [])
  | some (dc, r1) =>
    if dc ≠ 0 then (s, [])
    else
      match read_bits 3 r1 with
      | none => (s, [])
      | some (cpt, r2) =>
        if cpt ≠ 0 then (s, [])
        else
          match read_bits 4 r2 with
          | none => (s, [])
          | some (reserved, r3) =>
            if reserved ≠ 0 then (s, [])
            else
              match read_bits 32 r3 with
              | none => (s, [])
              | some (fmc, bitmap) =>
                let (s1, d1) := discard_range cfg s s.txNextAck fmc
                let (s2, d2) := apply_bitmap cfg s1 fmc bitmap
                (s2, d1 ++ d2)

/-- The retransmission loop of `pdcp_entity_tx::retransmit_all_pdus`
(lines 413-454): walk the given COUNTs in ascending order; for each one
present in the window, deep-copy, re-pack the header and re-run the
security pipeline (aborting with a protocol failure on any error) and
re-submit as a retransmission. -/
def retransmit_loop (W : Nat) (env : TxEnv) (w : Window Nat) :
    List Nat → List (Nat × Bool) × Nat
  | [] => ([], 0)
  | c :: rest =>
    if has_sn W w c then
      if !env.deepCopyOk then ([], 1)
      else if !env.headerOk then ([], 1)
      else if !env.secOk then ([], 1)
      else
        let (pdus, pf) := retransmit_loop W env w rest
        ((c, true) :: pdus, pf)
    else
      retransmit_loop W env w rest

/-- `pdcp_entity_tx::retransmit_all_pdus` (lines 399-455). -/
def retransmit_all_pdus (cfg : TxConfig) (env : TxEnv) (s : TxState) :
    TxState × TxEv :=
  if cfg.discardTimer.isNone then (s, {})
  else if !cfg.is_am then (s, {})
  else
    let s' := { s with txTrans := s.txNextAck }
    let (pdus, pf) :=
      retransmit_loop cfg.W env s'.window
        (List.range' s'.txNextAck (s'.txNext - s'.txNextAck))
    (s', { pdusToLower := pdus, protocolFailures := pf })

/-- `pdcp_entity_tx::reset` (lines 392-397): zero the counters and clear
the window (the one-shot max-COUNT flags are separate members and are
not touched by `reset`). -/
def tx_reset (s : TxState) : TxState :=
  { txNext := 0, txNextAck := 0, txTrans := 0,
    maxCountNotified := s.maxCountNotified,
    maxCountOverflow := s.maxCountOverflow,
    window := empty_window }

/-- The discard-timer callback `pdcp_entity_tx::discard_callback`
(lines 724-734): a per-COUNT timer expiry discards that COUNT. -/
def discard_callback (cfg : TxConfig) (s : TxState) (discardCount : Nat) :
    TxState × List Nat :=
  discard_pdu cfg s discardCount

/-- Aggregation of the effects of a sequence of transmitter calls. -/
def TxEv.app (a b : TxEv) : TxEv :=
  { sduDrops := a.sduDrops + b.sduDrops,
    protocolFailures := a.protocolFailures + b.protocolFailures,
    maxCountNotifications := a.maxCountNotifications + b.maxCountNotifications,
    pdusToLower := a.pdusToLower ++ b.pdusToLower,
    discardsToLower := a.discardsToLower ++ b.discardsToLower,
    assignedCounts := a.assignedCounts ++ b.assignedCounts }

/-- Submitting `n` SDUs in a row through `handle_sdu`, with no other
event interleaved. -/
def tx_submit_run (cfg : TxConfig) (env : TxEnv) : Nat → TxState → TxState × TxEv
  | 0, s => (s, {})
  | n + 1, s =>
    let (s1, ev) := handle_sdu cfg env s
    let (s2, ev') := tx_submit_run cfg env n s1
    (s2, ev.app ev')

/-- Submitting `n` SDUs where the lower layer confirms transmission of
each PDU (a transmit notification carrying its truncated SN) before the
next SDU is submitted. -/
def tx_submit_notify_run (cfg : TxConfig) (env : TxEnv) :
    Nat → TxState → TxState × TxEv
  | 0, s => (s, {})
  | n + 1, s =>
    let sn := SN cfg.snSize s.txNext
    let (s1, ev) := handle_sdu cfg env s
    let s2 := handle_transmit_notification cfg s1 sn
    let (s3, ev') := tx_submit_notify_run cfg env n s2
    (s3, ev.app ev')

/-! ## Receiver entity (`pdcp_entity_rx.cpp`) -/

/-- `pdcp_t_reordering`: the reordering timer duration. -/
inductive TReordering : Type
  | ms0
  | ms (t : Nat)
  | infinity
deriving DecidableEq

/-- `security::integrity_algorithm`. -/
inductive IntegrityAlgorithm : Type
  | nia0
  | nia1
  | nia2
  | nia3
deriving DecidableEq

/-- `security::ciphering_algorithm`. -/
inductive CipheringAlgorithm : Type
  | nea0
  | nea1
  | nea2
  | nea3
deriving DecidableEq

/-- A 4-byte MAC-I (`security::sec_mac`), zero-initialized. -/
structure SecMac : Type where
  m0 : Nat := 0
  m1 : Nat := 0
  m2 : Nat := 0
  m3 : Nat := 0
deriving DecidableEq

/-- The byte-for-byte comparison loop of
`pdcp_entity_rx::integrity_verify` (lines 449-454): valid iff all four
MAC bytes agree. -/
def mac_eq (a b : SecMac) : Bool :=
  a.m0 = b.m0 && a.m1 = b.m1 && a.m2 = b.m2 && a.m3 = b.m3

/-- External security primitives (NIA1-3 / NEA1-3), consumed as pure
functions of key, COUNT, bearer id, direction and the byte buffer. -/
structure SecPrims : Type where
  nia1 : Nat → Nat → Nat → Nat → List Nat → SecMac
  nia2 : Nat → Nat → Nat → Nat → List Nat → SecMac
  nia3 : Nat → Nat → Nat → Nat → List Nat → SecMac
  nea1 : Nat → Nat → Nat → Nat → List Nat → List Nat
  nea2 : Nat → Nat → Nat → Nat → List Nat → List Nat
  nea3 : Nat → Nat → Nat → Nat → List Nat → List Nat

/-- Receiver configuration together with its security context. -/
structure RxConfig : Type where
  snSize : Nat
  rbType : PdcpRbType
  rlcMode : PdcpRlcMode
  tReordering : TReordering
  maxCountNotify : Nat
  maxCountHard : Nat
  integrityEnabled : Bool
  cipheringEnabled : Bool
  integAlgo : IntegrityAlgorithm
  cipherAlgo : CipheringAlgorithm
  intKey : Nat
  encKey : Nat
  bearerId : Nat
  direction : Nat

def RxConfig.is_srb (cfg : RxConfig) : Bool := cfg.rbType = PdcpRbType.srb

def RxConfig.is_drb (cfg : RxConfig) : Bool := cfg.rbType = PdcpRbType.drb

def RxConfig.is_um (cfg : RxConfig) : Bool := cfg.rlcMode = PdcpRlcMode.um

def RxConfig.W (cfg : RxConfig) : Nat := window_size cfg.snSize

/-- `hdr_len_bytes`: 2 bytes for a 12-bit SN, 3 bytes for an 18-bit SN. -/
def hdr_len_bytes (snSize : Nat) : Nat := if snSize = 12 then 2 else 3

/-- An RX window entry (`pdcp_rx_sdu_info`): the stored COUNT and SDU. -/
structure RxEntry : Type where
  count : Nat
  sdu : List Nat
deriving DecidableEq

/-- Receiver entity state: the `pdcp_rx_state` counters, the RX window,
the reordering-timer run flag and the one-shot max-COUNT flags. -/
structure RxState : Type where
  rxNext : Nat := 0
  rxDeliv : Nat := 0
  rxReord : Nat := 0
  window : Window RxEntry := empty_window
  timerRunning : Bool := false
  maxCountNotified : Bool := false
  maxCountOverflow : Bool := false

/-- Observable effects of one receiver operation. -/
structure RxEv : Type where
  droppedPdus : Nat := 0
  integrityFailedPdus : Nat := 0
  integrityVerifiedPdus : Nat := 0
  protocolFailures : Nat := 0
  maxCountNotifications : Nat := 0
  tReorderingTimeouts : Nat := 0
  delivered : List (Nat × List Nat) := []

/-- `pdcp_entity_rx::read_data_pdu_header` (lines 553-584): extract the
truncated SN from the first header bytes. -/
def read_data_pdu_header (cfg : RxConfig) (buf : List Nat) : Option Nat :=
  if buf.length ≤ hdr_len_bytes cfg.snSize then none
  else if cfg.snSize = 12 then
    some ((buf.getD 0 0 &&& 0x0f) <<< 8 ||| (buf.getD 1 0 &&& 0xff))
  else if cfg.snSize = 18 then
    some ((buf.getD 0 0 &&& 0x03) <<< 16 ||| ((buf.getD 1 0 &&& 0xff) <<< 8) |||
          (buf.getD 2 0 &&& 0xff))
  else none

/-- `pdcp_entity_rx::extract_mac` (lines 591-601): pull the trailing
4-byte MAC-I off the buffer; if the buffer is too short the MAC stays
zero and the buffer is left untouched. -/
def extract_mac (buf : List Nat) : List Nat × SecMac :=
  if buf.length ≤ 4 then (buf, {})
  else
    let n := buf.length - 4
    (buf.take n,
     { m0 := buf.getD n 0, m1 := buf.getD (n + 1) 0,
       m2 := buf.getD (n + 2) 0, m3 := buf.getD (n + 3) 0 })

/-- `pdcp_entity_rx::integrity_verify` (lines 426-472): recompute the
expected MAC with the configured algorithm and compare byte-for-byte;
for NIA0 the comparison is skipped and the PDU is always valid. -/
def integrity_verify (prims : SecPrims) (cfg : RxConfig) (buf : List Nat)
    (count : Nat) (mac : SecMac) : Bool :=
  let macExp : SecMac :=
    match cfg.integAlgo with
    | IntegrityAlgorithm.nia0 => {}
    | IntegrityAlgorithm.nia1 => prims.nia1 cfg.intKey count cfg.bearerId cfg.direction buf
    | IntegrityAlgorithm.nia2 => prims.nia2 cfg.intKey count cfg.bearerId cfg.direction buf
    | IntegrityAlgorithm.nia3 => prims.nia3 cfg.intKey count cfg.bearerId cfg.direction buf
  if cfg.integAlgo ≠ IntegrityAlgorithm.nia0 then mac_eq mac macExp else true

/-- `pdcp_entity_rx::cipher_decrypt` (lines 474-502). -/
def cipher_decrypt (prims : SecPrims) (cfg : RxConfig) (msg : List Nat)
    (count : Nat) : List Nat :=
  match cfg.cipherAlgo with
  | CipheringAlgorithm.nea0 => msg
  | CipheringAlgorithm.nea1 => prims.nea1 cfg.encKey count cfg.bearerId cfg.direction msg
  | CipheringAlgorithm.nea2 => prims.nea2 cfg.encKey count cfg.bearerId cfg.direction msg
  | CipheringAlgorithm.nea3 => prims.nea3 cfg.encKey count cfg.bearerId cfg.direction msg

/-- `pdcp_entity_rx::deliver_all_consecutive_counts` (lines 323-337):
while the window holds an entry at `rx_deliv` (and `rx_deliv` has not
reached `rx_next`), deliver it upward, remove it and advance `rx_deliv`.
The C loop is bounded by `rx_next - rx_deliv` since `rx_deliv` advances
by one per iteration and stops at `rx_next`; the recursion is fueled by
exactly that bound.  Returns the delivered `(count, sdu)` pairs. -/
def deliver_consecutive (W : Nat) : Nat → RxState → RxState × List (Nat × List Nat)
  | 0, s => (s, [])
  | fuel + 1, s =>
    if s.rxDeliv = s.rxNext then (s, [])
    else
      match wnd_get W s.window s.rxDeliv with
      | none => (s, [])
      | some e =>
        let s' := { s with window := remove_sn W s.window s.rxDeliv,
                           rxDeliv := s.rxDeliv + 1 }
        let (s'', ds) := deliver_consecutive W fuel s'
        (s'', (s.rxDeliv, e.sdu) :: ds)

/-- Entry point matching the source call sites: fuel is the loop bound. -/
def deliver_all_consecutive_counts (W : Nat) (s : RxState) :
    RxState × List (Nat × List Nat) :=
  deliver_consecutive W (s.rxNext - s.rxDeliv) s

/-- The forced-delivery loop of
`pdcp_entity_rx::handle_t_reordering_expire` (lines 511-524): step
`rx_deliv` up to `rx_reord`, delivering whatever the window holds on the
way (gaps are skipped).  Fueled by `rx_reord - rx_deliv`, the exact
bound of the C loop. -/
def force_deliver (W : Nat) : Nat → RxState → RxState × List (Nat × List Nat)
  | 0, s => (s, [])
  | fuel + 1, s =>
    if s.rxDeliv = s.rxReord then (s, [])
    else
      let (w', out) :=
        match wnd_get W s.window s.rxDeliv with
        | some e => (remove_sn W s.window s.rxDeliv, [(s.rxDeliv, e.sdu)])
        | none => (s.window, ([] : List (Nat × List Nat)))
      let s' := { s with window := w', rxDeliv := s.rxDeliv + 1 }
      let (s'', ds) := force_deliver W fuel s'
      (s'', out ++ ds)

/-- `pdcp_entity_rx::handle_t_reordering_expire` (lines 507-541). -/
def handle_t_reordering_expire (cfg : RxConfig) (s : RxState) :
    RxState × RxEv :=
  let (s1, d1) := force_deliver cfg.W (s.rxReord - s.rxDeliv) s
  let (s2, d2) := deliver_all_consecutive_counts cfg.W s1
  let ev : RxEv := { tReorderingTimeouts := 1, delivered := d1 ++ d2 }
  if s2.rxDeliv < s2.rxNext then
    if cfg.tReordering = TReordering.ms0 then (s2, ev)
    else ({ s2 with rxReord := s2.rxNext, timerRunning := true }, ev)
  else
    (s2, ev)

/-- The reordering-timer callback `pdcp_entity_rx::reordering_callback`
(lines 544-548): when the armed timer fires it is no longer running, and
the expiry handler executes. -/
def reordering_timer_fire (cfg : RxConfig) (s : RxState) : RxState × RxEv :=
  handle_t_reordering_expire cfg { s with timerRunning := false }

/-- Steps 9-11 of `pdcp_entity_rx::handle_data_pdu` (lines 257-294):
store the SDU in the RX window, update `rx_next`, run in-order delivery
when the COUNT is at `rx_deliv`, and do the reordering-timer
bookkeeping (stop when all awaited SDUs arrived; for a zero timer treat
the event as an immediate expiry; otherwise arm the timer on a gap). -/
def rx_store_and_deliver (cfg : RxConfig) (sIn : RxState) (rcvdCount : Nat)
    (sdu : List Nat) : RxState × RxEv :=
  let s3 := { sIn with window := add_sn cfg.W sIn.window rcvdCount ⟨rcvdCount, sdu⟩ }
  let s4 := if s3.rxNext ≤ rcvdCount then { s3 with rxNext := rcvdCount + 1 } else s3
  let (s5, ds) :=
    if rcvdCount = s4.rxDeliv then deliver_all_consecutive_counts cfg.W s4
    else (s4, [])
  let s6 :=
    if s5.timerRunning && s5.rxReord ≤ s5.rxDeliv then
      { s5 with timerRunning := false }
    else s5
  match cfg.tReordering with
  | TReordering.infinity => (s6, { delivered := ds })
  | TReordering.ms0 =>
    let (s8, ev) := handle_t_reordering_expire cfg { s6 with rxReord := s6.rxNext }
    (s8, { ev with delivered := ds ++ ev.delivered })
  | TReordering.ms _ =>
    if !s6.timerRunning && s6.rxDeliv < s6.rxNext then
      ({ s6 with rxReord := s6.rxNext, timerRunning := true }, { delivered := ds })
    else
      (s6, { delivered := ds })

/-- Step 8 of `pdcp_entity_rx::handle_data_pdu` (lines 240-255) followed
by the store/deliver tail: reject a COUNT below `rx_deliv` and exact
duplicates, evicting a stale wrapped entry occupying the slot first. -/
def rx_window_and_deliver (cfg : RxConfig) (s : RxState) (rcvdCount : Nat)
    (sdu : List Nat) : RxState × RxEv :=
  if rcvdCount < s.rxDeliv then (s, {})
  else
    match wnd_get cfg.W s.window rcvdCount with
    | some e =>
      if e.count = rcvdCount then (s, {})
      else
        rx_store_and_deliver cfg
          { s with window := remove_sn cfg.W s.window rcvdCount } rcvdCount sdu
    | none => rx_store_and_deliver cfg s rcvdCount sdu

/-- Steps 5 (deciphering, lines 185-201) and the MAC-I extraction
(lines 203-210) of `pdcp_entity_rx::handle_data_pdu`: decipher the body
after the header when ciphering is on, then pull the trailing MAC-I for
SRBs or integrity-protected DRBs. -/
def rx_deciphered_sdu_and_mac (prims : SecPrims) (cfg : RxConfig)
    (pdu : List Nat) (rcvdCount : Nat) : List Nat × SecMac :=
  let hdrLen := hdr_len_bytes cfg.snSize
  let sdu0 :=
    if cfg.cipheringEnabled && cfg.cipherAlgo ≠ CipheringAlgorithm.nea0 then
      pdu.take hdrLen ++ cipher_decrypt prims cfg (pdu.drop hdrLen) rcvdCount
    else pdu
  if cfg.is_srb || (cfg.is_drb && cfg.integrityEnabled) then extract_mac sdu0
  else (sdu0, ({} : SecMac))

/-- `pdcp_entity_rx::handle_data_pdu` (lines 120-298). -/
def handle_data_pdu (prims : SecPrims) (cfg : RxConfig) (s : RxState)
    (pdu : List Nat) : RxState × RxEv :=
  let hdrLen := hdr_len_bytes cfg.snSize
  if pdu.length ≤ hdrLen then (s, { droppedPdus := 1 })
  else
    match read_data_pdu_header cfg pdu with
    | none => (s, { droppedPdus := 1 })
    | some sn =>
      let rcvdCount := rcvd_count_rx cfg.snSize s.rxDeliv sn
      let notify : Bool := cfg.maxCountNotify < rcvdCount && !s.maxCountNotified
      let nEv : Nat := if notify then 1 else 0
      let s1 := if notify then { s with maxCountNotified := true } else s
      if cfg.maxCountHard ≤ rcvdCount then
        if s1.maxCountOverflow then (s1, { maxCountNotifications := nEv })
        else ({ s1 with maxCountOverflow := true },
              { maxCountNotifications := nEv, protocolFailures := 1 })
      else
        let sdumac := rx_deciphered_sdu_and_mac prims cfg pdu rcvdCount
        if cfg.integrityEnabled && !(integrity_verify prims cfg sdumac.1 rcvdCount sdumac.2) then
          (s1, { maxCountNotifications := nEv, integrityFailedPdus := 1 })
        else
          let iEv : Nat := if cfg.integrityEnabled then 1 else 0
          let sdu2 := sdumac.1.drop hdrLen
          let (sF, ev) := rx_window_and_deliver cfg s1 rcvdCount sdu2
          (sF, { ev with maxCountNotifications := nEv, integrityVerifiedPdus := iEv })

/-- `pdcp_control_pdu_max_size`: reference maximum control PDU size. -/
def pdcp_control_pdu_max_size : Nat := 9000

/-- `bit_encoder::pack`: the low `n` bits of `value`, MSB first. -/
def pack_bits (value : Nat) : Nat → List Bool
  | 0 => []
  | n + 1 => value.testBit n :: pack_bits value n

/-- `pdcp_entity_rx::compile_status_report` (lines 371-401), producing
the wire bit sequence: D/C = control, CPT = status report, four reserved
zero bits, `rx_deliv` as the 32-bit FMC, then one bit per COUNT from
`rx_deliv + 1` up to `rx_next`, truncated to the control-PDU budget,
set iff the window holds that COUNT's slot. -/
def compile_status_report (cfg : RxConfig) (s : RxState) : List Bool :=
  let maxBits := (pdcp_control_pdu_max_size - 5) * 8
  let bitmapBegin := (s.rxDeliv + 1) % U32
  let bitmapEnd :=
    if bitmapBegin < s.rxNext ∧ maxBits < s.rxNext - bitmapBegin then
      bitmapBegin + maxBits
    else s.rxNext
  pack_bits 0 1 ++ pack_bits 0 3 ++ pack_bits 0 4 ++ pack_bits s.rxDeliv 32 ++
    (List.range' bitmapBegin (bitmapEnd - bitmapBegin)).map
      (fun i => has_sn cfg.W s.window i)

/-- Trivial security primitives (identity cipher, all-zero MACs); the
reordering scenario below runs with ciphering and integrity disabled, so
these are never consulted. -/
def null_prims : SecPrims :=
  { nia1 := fun _ _ _ _ _ => {}, nia2 := fun _ _ _ _ _ => {},
    nia3 := fun _ _ _ _ _ => {},
    nea1 := fun _ _ _ _ m => m, nea2 := fun _ _ _ _ m => m,
    nea3 := fun _ _ _ _ m => m }

/-- The receiver configuration of spec scenario 2: 12-bit SN, AM DRB,
finite non-zero reordering timer, security disabled. -/
def scenario2_cfg : RxConfig :=
  { snSize := 12, rbType := PdcpRbType.drb, rlcMode := PdcpRlcMode.am,
    tReordering := TReordering.ms 35,
    maxCountNotify := 4294967040, maxCountHard := 4294967295,
    integrityEnabled := false, cipheringEnabled := false,
    integAlgo := IntegrityAlgorithm.nia2, cipherAlgo := CipheringAlgorithm.nea0,
    intKey := 0, encKey := 0, bearerId := 0, direction := 0 }

/-- A wire data PDU for COUNT `c` (12-bit SN, DRB header, one payload
byte `0xAB`). -/
def scenario2_pdu (c : Nat) : List Nat :=
  [0x80 ||| ((c >>> 8) &&& 0x0f), c &&& 0xff, 0xAB]

/-- Scenario 2 execution: a fresh receiver gets COUNTs 0, 1 and 3. -/
def scenario2_st1 : RxState × RxEv :=
  handle_data_pdu null_prims scenario2_cfg {} (scenario2_pdu 0)

def scenario2_st2 : RxState × RxEv :=
  handle_data_pdu null_prims scenario2_cfg scenario2_st1.1 (scenario2_pdu 1)

def scenario2_st3 : RxState × RxEv :=
  handle_data_pdu null_prims scenario2_cfg scenario2_st2.1 (scenario2_pdu 3)

/-- Scenario 2: the armed reordering timer then expires. -/
def scenario2_st4 : RxState × RxEv :=
  reordering_timer_fire scenario2_cfg scenario2_st3.1

/-- The receiver configuration of spec scenario 3: integrity enabled
with NIA2, ciphering off. -/
def scenario3_cfg : RxConfig :=
  { snSize := 12, rbType := PdcpRbType.drb, rlcMode := PdcpRlcMode.am,
    tReordering := TReordering.infinity,
    maxCountNotify := 4294967040, maxCountHard := 4294967295,
    integrityEnabled := true, cipheringEnabled := false,
    integAlgo := IntegrityAlgorithm.nia2, cipherAlgo := CipheringAlgorithm.nea0,
    intKey := 0, encKey := 0, bearerId := 0, direction := 0 }

/-- Scenario 3 with the null integrity algorithm NIA0 instead. -/
def scenario3_cfg_nia0 : RxConfig :=
  { scenario3_cfg with integAlgo := IntegrityAlgorithm.nia0 }

/-- A data PDU for COUNT 0 whose trailing MAC-I bytes `1,2,3,4` do not
match the recomputed MAC (all zeros under `null_prims`). -/
def scenario3_pdu : List Nat := [0x80, 0x00, 0xAB, 1, 2, 3, 4]

/-- The transmitter configuration of spec scenario 1: 12-bit SN,
user-plane UM bearer, no discard timer, default queue limit and
maximum COUNT thresholds near the top of the 32-bit range. -/
def scenario1_cfg : TxConfig :=
  { snSize := 12, rbType := PdcpRbType.drb, rlcMode := PdcpRlcMode.um,
    discardTimer := none, rlcSduQueue := 4096,
    maxCountNotify := 4294967040, maxCountHard := 4294967295 }

/-- The transmitter counter ordering `tx_next_ack ≤ tx_trans ≤ tx_next`
the design assumes (spec section 3). -/
def TxInv (s : TxState) : Prop :=
  s.txNextAck ≤ s.txTrans ∧ s.txTrans ≤ s.txNext

/-- Receiver well-formedness: `rx_deliv ≤ rx_next` and `rx_reord ≤
rx_next`, and every window entry sits in the slot of its stored COUNT
with that COUNT at or above `rx_deliv` (no entry below `rx_deliv` is
retained). -/
def RxWf (W : Nat) (s : RxState) : Prop :=
  s.rxDeliv ≤ s.rxNext ∧ s.rxReord ≤ s.rxNext ∧
  ∀ (i : Nat) (e : RxEntry), s.window i = some e →
    e.count % W = i ∧ s.rxDeliv ≤ e.count

/-- COUNT `c` is buffered in a TX window of capacity `W`: the slot
keyed by `c` holds exactly `c` (`sdu_window::has_sn` plus slot content). -/
def tx_holds (W : Nat) (w : Window Nat) (c : Nat) : Prop :=
  w (c % W) = some c

/-- Transmitter window well-formedness: the counter ordering, all live
COUNTs within one window span of `tx_next_ack`, and every window entry
sitting in the slot of its COUNT with that COUNT in
`[tx_next_ack, tx_next)`. -/
def TxWindowWf (W : Nat) (s : TxState) : Prop :=
  s.txNextAck ≤ s.txTrans ∧ s.txTrans ≤ s.txNext ∧ s.txNext ≤ s.txNextAck + W ∧
  ∀ (i c : Nat), s.window i = some c →
    c % W = i ∧ s.txNextAck ≤ c ∧ c < s.txNext

/-- Wire bits of a well-formed PDCP status report (TS 38.323 6.2.3.1):
D/C = 0, CPT = 0, four reserved zero bits, the 32-bit FMC, then the
bitmap. -/
def status_report_wire (fmc : Nat) (bitmap : List Bool) : List Bool :=
  pack_bits 0 1 ++ pack_bits 0 3 ++ pack_bits 0 4 ++ pack_bits fmc 32 ++ bitmap

/-- Configuration for the spec's scenario 5: 12-bit AM bearer with a
discard timer configured. -/
def scenario5_cfg : TxConfig :=
  { snSize := 12, rbType := PdcpRbType.drb, rlcMode := PdcpRlcMode.am,
    discardTimer := some 10, rlcSduQueue := 4096,
    maxCountNotify := 4294967040, maxCountHard := 4294967295 }

/-- Transmitter state for scenario 5: COUNTs 8, 9, 11, 12, 13 buffered,
`tx_next_ack = 8`, `tx_next = 14`. -/
def scenario5_state : TxState :=
  { txNext := 14, txNextAck := 8, txTrans := 14,
    window :=
      add_sn 2048 (add_sn 2048 (add_sn 2048 (add_sn 2048
        (add_sn 2048 empty_window 8 8) 9 9) 11 11) 12 12) 13 13 }

/-! ## Theorems -/

/-- The receiver's COUNT resolution and the transmitter's notification
COUNT estimation are the same arithmetic function of the reference. -/
theorem rcvd_count_rx_eq_notification (snSize r sn : Nat) :
    rcvd_count_rx snSize r sn = notification_count_from_lower snSize r sn := rfl

/-- Core round-trip: resolving `SN(c)` against any reference `r` whose
disambiguation window contains `c` recovers `c`, for both SN sizes. -/
theorem resolution_roundtrip_aux (snSize r c : Nat)
    (hsz : snSize = 12 ∨ snSize = 18) (hr : r < U32) (hc : c < U32)
    (hw : in_resolution_window snSize r c) :
    notification_count_from_lower snSize r (SN snSize c) = c := by
  rcases hsz with h | h <;> subst h <;>
  · unfold notification_count_from_lower in_resolution_window SN HFN COUNT
      window_size sn_cardinality U32 at *
    norm_num at *
    split_ifs with h1 h2 <;> omega

/-- C1: for every SN size (12 or 18 bits), every COUNT `c` and reference
COUNT `r` such that `c` lies in the disambiguation window around `r`,
the nearest-window COUNT resolution applied to `SN(c)` returns exactly
`c`; this holds identically for the receiver's resolution
(`rcvd_count_rx`, resolving against `rx_deliv`) and for the
transmitter's `notification_count_estimation` resolving against its
lower window edge. -/
theorem count_resolution_roundtrip (snSize r c : Nat) (cfg : TxConfig) (s : TxState)
    (hsz : snSize = 12 ∨ snSize = 18) (hr : r < U32) (hc : c < U32)
    (hw : in_resolution_window snSize r c)
    (hcfg : cfg.snSize = snSize)
    (hlow : (if cfg.discardTimer.isSome then s.txNextAck else s.txTrans) = r) :
    rcvd_count_rx snSize r (SN snSize c) = c ∧
    notification_count_estimation cfg s (SN snSize c) = c := by
  have core := resolution_roundtrip_aux snSize r c hsz hr hc hw
  refine ⟨core, ?_⟩
  unfold notification_count_estimation
  rw [hcfg, hlow]
  exact core

/-- Witness for C1: SN size 12, reference COUNT 4096, original COUNT
4095 (resolution crosses an HFN boundary downward). -/
theorem count_resolution_roundtrip_witness :
    in_resolution_window 12 4096 4095 ∧
    (rcvd_count_rx 12 4096 (SN 12 4095) = 4095 ∧
     notification_count_estimation
       { snSize := 12, rbType := PdcpRbType.drb, rlcMode := PdcpRlcMode.am,
         discardTimer := some 10, rlcSduQueue := 4096,
         maxCountNotify := 4294967040, maxCountHard := 4294967295 }
       { txNextAck := 4096 } (SN 12 4095) = 4095) :=
  ⟨by decide,
   count_resolution_roundtrip 12 4096 4095
     { snSize := 12, rbType := PdcpRbType.drb, rlcMode := PdcpRlcMode.am,
       discardTimer := some 10, rlcSduQueue := 4096,
       maxCountNotify := 4294967040, maxCountHard := 4294967295 }
     { txNextAck := 4096 }
     (Or.inl rfl) (by decide) (by decide) (by decide) rfl (by decide)⟩

/-- C3: when `tx_next - tx_trans ≥ window_size - 1`, `handle_sdu`
rejects the SDU with no state change at all (no COUNT assigned, no
window insert, no lower-layer call), and any window of capacity
`window_size` holds at most `window_size` live entries. -/
theorem window_full_reject (cfg : TxConfig) (env : TxEnv) (s : TxState)
    (h : cfg.W - 1 ≤ s.txNext - s.txTrans) :
    handle_sdu cfg env s = (s, { sduDrops := 1 }) ∧
    (∀ w : Window Nat, window_card cfg.W w ≤ cfg.W) ∧
    (∀ w : Window RxEntry, window_card cfg.W w ≤ cfg.W) := by
  refine ⟨?_, ?_, ?_⟩
  · unfold handle_sdu
    split_ifs <;> rfl
  · intro w
    unfold window_card
    calc ((List.range cfg.W).filter (fun i => (w i).isSome)).length
        ≤ (List.range cfg.W).length := List.length_filter_le _ _
      _ = cfg.W := List.length_range cfg.W
  · intro w
    unfold window_card
    calc ((List.range cfg.W).filter (fun i => (w i).isSome)).length
        ≤ (List.range cfg.W).length := List.length_filter_le _ _
      _ = cfg.W := List.length_range cfg.W

/-- Witness for C3: a 12-bit transmitter with `tx_next = 2047`,
`tx_trans = 0` (window size 2048). -/
theorem window_full_reject_witness :
    ((window_size 12) - 1 ≤ 2047 - 0) ∧
    (handle_sdu
       { snSize := 12, rbType := PdcpRbType.drb, rlcMode := PdcpRlcMode.am,
         discardTimer := some 10, rlcSduQueue := 4096,
         maxCountNotify := 4294967040, maxCountHard := 4294967295 }
       {} { txNext := 2047, txTrans := 0 } =
       ({ txNext := 2047, txTrans := 0 }, { sduDrops := 1 }) ∧
     (∀ w : Window Nat, window_card 2048 w ≤ 2048) ∧
     (∀ w : Window RxEntry, window_card 2048 w ≤ 2048)) :=
  ⟨by decide,
   window_full_reject
     { snSize := 12, rbType := PdcpRbType.drb, rlcMode := PdcpRlcMode.am,
       discardTimer := some 10, rlcSduQueue := 4096,
       maxCountNotify := 4294967040, maxCountHard := 4294967295 }
     {} { txNext := 2047, txTrans := 0 } (by decide)⟩

/-- One `handle_sdu` call at or beyond the hard maximum COUNT with the
one-shot flag still clear: the SDU is dropped, the flag is set and
`on_protocol_failure` fires once. -/
theorem handle_sdu_hard_max_first (cfg : TxConfig) (env : TxEnv) (s : TxState)
    (hhard : cfg.maxCountHard ≤ s.txNext)
    (horder : s.txTrans ≤ s.txNext)
    (hqueue : s.txNext - s.txTrans < cfg.rlcSduQueue)
    (hwin : s.txNext - s.txTrans < cfg.W - 1)
    (hflag : s.maxCountOverflow = false) :
    handle_sdu cfg env s =
      ({ s with maxCountOverflow := true },
       { sduDrops := 1, protocolFailures := 1 }) := by
  unfold handle_sdu
  rw [if_neg (by omega), if_neg (by omega), if_neg (by omega), if_pos hhard]
  simp [hflag]

/-- One `handle_sdu` call at or beyond the hard maximum COUNT with the
one-shot flag already set: the SDU is dropped and nothing else happens. -/
theorem handle_sdu_hard_max_again (cfg : TxConfig) (env : TxEnv) (s : TxState)
    (hhard : cfg.maxCountHard ≤ s.txNext)
    (horder : s.txTrans ≤ s.txNext)
    (hqueue : s.txNext - s.txTrans < cfg.rlcSduQueue)
    (hwin : s.txNext - s.txTrans < cfg.W - 1)
    (hflag : s.maxCountOverflow = true) :
    handle_sdu cfg env s = (s, { sduDrops := 1 }) := by
  unfold handle_sdu
  rw [if_neg (by omega), if_neg (by omega), if_neg (by omega), if_pos hhard]
  simp [hflag]

/-- Iterating `handle_sdu` beyond the hard maximum with the one-shot
flag already set: every SDU is dropped, the state never changes and no
further failure is signalled. -/
theorem tx_submit_run_hard_max (cfg : TxConfig) (env : TxEnv) (s : TxState)
    (hhard : cfg.maxCountHard ≤ s.txNext)
    (horder : s.txTrans ≤ s.txNext)
    (hqueue : s.txNext - s.txTrans < cfg.rlcSduQueue)
    (hwin : s.txNext - s.txTrans < cfg.W - 1)
    (hflag : s.maxCountOverflow = true) :
    ∀ n : Nat, tx_submit_run cfg env n s = (s, { sduDrops := n }) := by
  intro n
  induction n with
  | zero => rfl
  | succ m ih =>
    show tx_submit_run cfg env (m + 1) s = (s, { sduDrops := m + 1 })
    unfold tx_submit_run
    rw [handle_sdu_hard_max_again cfg env s hhard horder hqueue hwin hflag]
    dsimp only
    rw [ih]
    dsimp only
    simp [TxEv.app, Nat.add_comm]

/-- C2: from any transmitter state with `tx_next ≥ hard_max_count` (that
passes the earlier backpressure guards, which drop without reaching the
max-COUNT check) and the one-shot flag clear, any number `n ≥ 1` of
`handle_sdu` calls drops every SDU, assigns no COUNT, hands nothing to
the lower layer, leaves the counters and the window untouched (only the
one-shot flag is set), and `on_protocol_failure` fires exactly once. -/
theorem count_exhaustion_oneshot (cfg : TxConfig) (env : TxEnv) (s : TxState)
    (n : Nat) (hn : 1 ≤ n)
    (hhard : cfg.maxCountHard ≤ s.txNext)
    (horder : s.txTrans ≤ s.txNext)
    (hqueue : s.txNext - s.txTrans < cfg.rlcSduQueue)
    (hwin : s.txNext - s.txTrans < cfg.W - 1)
    (hflag : s.maxCountOverflow = false) :
    (tx_submit_run cfg env n s).1 = { s with maxCountOverflow := true } ∧
    (tx_submit_run cfg env n s).2.protocolFailures = 1 ∧
    (tx_submit_run cfg env n s).2.sduDrops = n ∧
    (tx_submit_run cfg env n s).2.assignedCounts = [] ∧
    (tx_submit_run cfg env n s).2.pdusToLower = [] ∧
    (tx_submit_run cfg env n s).2.discardsToLower = [] := by
  obtain ⟨m, rfl⟩ : ∃ m, n = m + 1 := ⟨n - 1, by omega⟩
  have hrun :
      tx_submit_run cfg env (m + 1) s =
        ({ s with maxCountOverflow := true },
         TxEv.app { sduDrops := 1, protocolFailures := 1 } { sduDrops := m }) := by
    unfold tx_submit_run
    rw [handle_sdu_hard_max_first cfg env s hhard horder hqueue hwin hflag]
    dsimp only
    rw [tx_submit_run_hard_max cfg env { s with maxCountOverflow := true }
        hhard horder hqueue hwin rfl m]
  rw [hrun]
  refine ⟨rfl, rfl, by simp only [TxEv.app]; omega, rfl, rfl, rfl⟩

/-- Witness for C2: a transmitter already at the hard maximum COUNT 100,
three further SDU submissions. -/
theorem count_exhaustion_oneshot_witness :
    (1 ≤ 3 ∧
     (100 : Nat) ≤ 100 ∧ (0 : Nat) ≤ 100 ∧ 100 - 0 < 4096 ∧ 100 - 0 < 2048 - 1) ∧
    ((tx_submit_run
        { snSize := 12, rbType := PdcpRbType.drb, rlcMode := PdcpRlcMode.am,
          discardTimer := some 10, rlcSduQueue := 4096,
          maxCountNotify := 50, maxCountHard := 100 } {} 3
        { txNext := 100, maxCountNotified := true }).2.protocolFailures = 1 ∧
     (tx_submit_run
        { snSize := 12, rbType := PdcpRbType.drb, rlcMode := PdcpRlcMode.am,
          discardTimer := some 10, rlcSduQueue := 4096,
          maxCountNotify := 50, maxCountHard := 100 } {} 3
        { txNext := 100, maxCountNotified := true }).2.sduDrops = 3) :=
  ⟨⟨by decide, by decide, by decide, by decide, by decide⟩,
   ⟨(count_exhaustion_oneshot
       { snSize := 12, rbType := PdcpRbType.drb, rlcMode := PdcpRlcMode.am,
         discardTimer := some 10, rlcSduQueue := 4096,
         maxCountNotify := 50, maxCountHard := 100 } {}
       { txNext := 100, maxCountNotified := true } 3
       (by decide) (by decide) (by decide) (by decide) (by decide) rfl).2.1,
    (count_exhaustion_oneshot
       { snSize := 12, rbType := PdcpRbType.drb, rlcMode := PdcpRlcMode.am,
         discardTimer := some 10, rlcSduQueue := 4096,
         maxCountNotify := 50, maxCountHard := 100 } {}
       { txNext := 100, maxCountNotified := true } 3
       (by decide) (by decide) (by decide) (by decide) (by decide) rfl).2.2.1⟩⟩

/-- A successful `handle_sdu` on a transmitter without a discard timer:
the PDU is handed down with COUNT `tx_next` and `tx_next` increments. -/
theorem handle_sdu_success_no_timer (cfg : TxConfig) (env : TxEnv) (s : TxState)
    (hd : cfg.discardTimer = none)
    (hh : env.headerOk = true) (hs : env.secOk = true)
    (horder : s.txTrans ≤ s.txNext)
    (hqueue : s.txNext - s.txTrans < cfg.rlcSduQueue)
    (hwin : s.txNext - s.txTrans < cfg.W - 1)
    (hnotify : s.txNext < cfg.maxCountNotify)
    (hhard : s.txNext < cfg.maxCountHard)
    (hu32 : s.txNext + 1 < U32) :
    handle_sdu cfg env s =
      ({ s with txNext := s.txNext + 1 },
       { pdusToLower := [(s.txNext, false)], assignedCounts := [s.txNext] }) := by
  unfold handle_sdu
  rw [if_neg (by omega), if_neg (by omega), if_neg (by omega), if_neg (by omega)]
  have hnb : (cfg.maxCountNotify ≤ s.txNext) = False := by simp; omega
  simp only [hd, hnb, Option.isSome_none, Bool.false_and, Bool.and_false, decide_False,
    if_false, hh, hs, Bool.not_true, Bool.false_eq_true, ite_false]
  simp [tx_window_insert, hd, Nat.mod_eq_of_lt hu32]

/-- A transmit notification for the SN of the COUNT just sent advances
`tx_trans` past it (transmitter without a discard timer). -/
theorem transmit_notification_advance (cfg : TxConfig) (s : TxState) (k : Nat)
    (hd : cfg.discardTimer = none)
    (hsz : cfg.snSize = 12 ∨ cfg.snSize = 18)
    (htrans : s.txTrans = k) (hnext : s.txNext = k + 1) (hk : k + 1 < U32) :
    handle_transmit_notification cfg s (SN cfg.snSize k) =
      { s with txTrans := k + 1 } := by
  have hcard : SN cfg.snSize k < sn_cardinality cfg.snSize := by
    unfold SN sn_cardinality
    exact Nat.mod_lt _ (by positivity)
  have hwin : in_resolution_window cfg.snSize k k := by
    unfold in_resolution_window window_size sn_cardinality U32
    rcases hsz with h | h <;> rw [h] <;> omega
  have hres : notification_count_from_lower cfg.snSize k (SN cfg.snSize k) = k :=
    resolution_roundtrip_aux cfg.snSize k k hsz (by omega) (by omega) hwin
  unfold handle_transmit_notification notification_count_estimation
  rw [if_neg (by omega)]
  simp only [hd, Option.isSome_none, Bool.false_eq_true, if_false, htrans, hres]
  rw [if_neg (by omega), if_neg (by omega)]
  simp

/-- Submit-and-notify rounds from a drained transmitter
(`tx_next = tx_trans = k`): after `n` rounds no SDU was dropped, the
assigned COUNTs are exactly `k, k+1, …, k+n-1` and the counters advance
to `k + n`. -/
theorem tx_submit_notify_run_steady (cfg : TxConfig) (env : TxEnv)
    (hd : cfg.discardTimer = none)
    (hsz : cfg.snSize = 12 ∨ cfg.snSize = 18)
    (hh : env.headerOk = true) (hsec : env.secOk = true)
    (hq : 1 ≤ cfg.rlcSduQueue) (hW : 2 ≤ cfg.W) :
    ∀ (n k : Nat) (s : TxState), s.txNext = k → s.txTrans = k →
      k + n ≤ cfg.maxCountNotify → k + n ≤ cfg.maxCountHard → k + n < U32 →
      tx_submit_notify_run cfg env n s =
        ({ s with txNext := k + n, txTrans := k + n },
         { pdusToLower := (List.range' k n).map (fun c => (c, false)),
           assignedCounts := List.range' k n }) := by
  intro n
  induction n with
  | zero =>
    intro k s hnext htrans _ _ _
    show (s, ({} : TxEv)) = _
    cases s
    simp_all [List.range']
  | succ m ih =>
    intro k s hnext htrans hnot hhard hu
    show tx_submit_notify_run cfg env (m + 1) s = _
    unfold tx_submit_notify_run
    rw [hnext]
    rw [handle_sdu_success_no_timer cfg env s hd hh hsec (by omega) (by omega)
        (by omega) (by omega) (by omega) (by omega)]
    dsimp only
    rw [transmit_notification_advance cfg { s with txNext := s.txNext + 1 } k hd hsz
        htrans (by simp [hnext]) (by omega)]
    dsimp only
    rw [ih (k + 1) { s with txNext := s.txNext + 1, txTrans := k + 1 }
        (by simp [hnext]) rfl (by omega) (by omega) (by omega)]
    dsimp only
    rw [hnext]
    have hk1 : k + (m + 1) = k + 1 + m := by omega
    rw [hk1]
    simp [TxEv.app, List.range'_succ]

/-- Submitting SDUs without any notification: `tx_trans` stays put, the
window-size guard is not yet hit, and `tx_next` fills up to `k + n`. -/
theorem tx_submit_run_fill (cfg : TxConfig) (env : TxEnv)
    (hd : cfg.discardTimer = none)
    (hh : env.headerOk = true) (hsec : env.secOk = true) :
    ∀ (n k : Nat) (s : TxState), s.txNext = k → s.txTrans = 0 →
      k + n ≤ cfg.rlcSduQueue → k + n ≤ cfg.W - 1 →
      k + n ≤ cfg.maxCountNotify → k + n ≤ cfg.maxCountHard → k + n < U32 →
      tx_submit_run cfg env n s =
        ({ s with txNext := k + n },
         { pdusToLower := (List.range' k n).map (fun c => (c, false)),
           assignedCounts := List.range' k n }) := by
  intro n
  induction n with
  | zero =>
    intro k s hnext htrans _ _ _ _ _
    show (s, ({} : TxEv)) = _
    cases s
    simp_all [List.range']
  | succ m ih =>
    intro k s hnext htrans hqueue hwin hnot hhard hu
    show tx_submit_run cfg env (m + 1) s = _
    unfold tx_submit_run
    rw [handle_sdu_success_no_timer cfg env s hd hh hsec (by omega) (by omega)
        (by omega) (by omega) (by omega) (by omega)]
    dsimp only
    rw [ih (k + 1) { s with txNext := s.txNext + 1 }
        (by simp [hnext]) htrans (by omega) (by omega) (by omega) (by omega) (by omega)]
    dsimp only
    rw [hnext]
    have hk1 : k + (m + 1) = k + 1 + m := by omega
    rw [hk1]
    simp [TxEv.app, List.range'_succ]

/-- `handle_sdu` with the transmit window full: reject with no state
change (shared helper for the window-guard behavior). -/
theorem handle_sdu_window_full_drop (cfg : TxConfig) (env : TxEnv) (s : TxState)
    (h : cfg.W - 1 ≤ s.txNext - s.txTrans) :
    handle_sdu cfg env s = (s, { sduDrops := 1 }) := by
  unfold handle_sdu
  split_ifs <;> rfl

/-- Iterated submissions against a full transmit window: every SDU is
dropped and nothing changes. -/
theorem tx_submit_run_window_full (cfg : TxConfig) (env : TxEnv) :
    ∀ (n : Nat) (s : TxState), cfg.W - 1 ≤ s.txNext - s.txTrans →
      tx_submit_run cfg env n s = (s, { sduDrops := n }) := by
  intro n
  induction n with
  | zero => intro s _; rfl
  | succ m ih =>
    intro s h
    show tx_submit_run cfg env (m + 1) s = _
    unfold tx_submit_run
    rw [handle_sdu_window_full_drop cfg env s h]
    dsimp only
    rw [ih s h]
    dsimp only
    simp [TxEv.app, Nat.add_comm]

/-- `TxEv.app` with no effects on the left. -/
theorem TxEv.empty_app (e : TxEv) : TxEv.app {} e = e := by
  cases e
  simp [TxEv.app]

/-- `TxEv.app` is associative. -/
theorem TxEv.app_assoc (a b c : TxEv) :
    TxEv.app (TxEv.app a b) c = TxEv.app a (TxEv.app b c) := by
  cases a
  cases b
  cases c
  simp [TxEv.app, Nat.add_assoc]

/-- Splitting an iterated submission run. -/
theorem tx_submit_run_add (cfg : TxConfig) (env : TxEnv) :
    ∀ (a b : Nat) (s s1 s2 : TxState) (ev1 ev2 : TxEv),
      tx_submit_run cfg env a s = (s1, ev1) →
      tx_submit_run cfg env b s1 = (s2, ev2) →
      tx_submit_run cfg env (a + b) s = (s2, ev1.app ev2) := by
  intro a
  induction a with
  | zero =>
    intro b s s1 s2 ev1 ev2 h1 h2
    have h0 : tx_submit_run cfg env 0 s = (s, ({} : TxEv)) := rfl
    rw [h0] at h1
    obtain ⟨rfl, rfl⟩ := Prod.mk.injEq .. ▸ h1
    rw [Nat.zero_add, h2, TxEv.empty_app]
  | succ m ih =>
    intro b s s1 s2 ev1 ev2 h1 h2
    rw [show m + 1 + b = (m + b) + 1 from by omega]
    have hunf : ∀ (t : TxState) (n : Nat),
        tx_submit_run cfg env (n + 1) t =
          ((tx_submit_run cfg env n (handle_sdu cfg env t).1).1,
           (handle_sdu cfg env t).2.app
             (tx_submit_run cfg env n (handle_sdu cfg env t).1).2) := by
      intro t n
      rfl
    rw [hunf] at h1
    obtain ⟨h1a, h1b⟩ := Prod.mk.injEq .. ▸ h1
    rw [hunf]
    have hmid := ih b (handle_sdu cfg env s).1
      (tx_submit_run cfg env m (handle_sdu cfg env s).1).1 s2
      (tx_submit_run cfg env m (handle_sdu cfg env s).1).2 ev2 rfl
      (by rw [h1a]; exact h2)
    rw [hmid]
    dsimp only
    rw [← h1b, TxEv.app_assoc]

/-- Counterexample to C9 as stated: with 12-bit SN and no other events
interleaved (so `tx_trans` never advances), submitting 4095 SDUs does
drop SDUs — the transmit-window guard fires from the 2048th submission
on — and `tx_next` ends at 2047, not 4095. -/
theorem scenario1_counterexample :
    ¬ ((tx_submit_run scenario1_cfg {} 4095 ({} : TxState)).2.sduDrops = 0 ∧
       (tx_submit_run scenario1_cfg {} 4095 ({} : TxState)).1.txNext = 4095) := by
  intro hcl
  have hfill := tx_submit_run_fill scenario1_cfg {} rfl rfl rfl 2047 0 {} rfl rfl
    (by decide) (by decide) (by decide) (by decide) (by decide)
  have hfill' :
      tx_submit_run scenario1_cfg {} 2047 ({} : TxState) =
        ({ txNext := 2047 },
         { pdusToLower := List.map (fun c => (c, false)) (List.range' 0 2047),
           assignedCounts := List.range' 0 2047 }) := by
    rw [hfill]
  have hfull := tx_submit_run_window_full scenario1_cfg {} 2048
    ({ txNext := 2047 } : TxState) (by decide)
  have htotal := tx_submit_run_add scenario1_cfg {} 2047 2048 {}
    { txNext := 2047 } { txNext := 2047 } _ _ hfill' hfull
  have hB := hcl.2
  rw [show (4095 : Nat) = 2047 + 2048 from by norm_num] at hB
  rw [htotal] at hB
  exact absurd hB (by decide)

/-- C9 amended: same scenario, but the lower layer confirms transmission
of each PDU before the next SDU is submitted (without this the window
guard drops SDUs once `tx_next - tx_trans` reaches `window_size - 1`):
4095 submissions suffer no drop, `tx_next` ends at 4095, and the
assigned COUNTs are exactly `0 … 4094`, each assigned once. -/
theorem scenario1_amended :
    (tx_submit_notify_run scenario1_cfg {} 4095 ({} : TxState)).1.txNext = 4095 ∧
    (tx_submit_notify_run scenario1_cfg {} 4095 ({} : TxState)).2.sduDrops = 0 ∧
    (tx_submit_notify_run scenario1_cfg {} 4095 ({} : TxState)).2.assignedCounts =
      List.range 4095 ∧
    (tx_submit_notify_run scenario1_cfg {} 4095 ({} : TxState)).2.assignedCounts.Nodup := by
  have hrun := tx_submit_notify_run_steady scenario1_cfg {} rfl (Or.inl rfl) rfl rfl
    (by decide) (by decide) 4095 0 {} rfl rfl (by decide) (by decide) (by decide)
  rw [hrun]
  refine ⟨rfl, rfl, ?_, ?_⟩
  · simp [List.range_eq_range']
  · simp only []
    rw [show (0 : Nat) = 0 from rfl]
    exact (List.range_eq_range' 4095 ▸ List.nodup_range 4095)

/-- C7: a fresh receiver with a finite non-zero reordering timer gets
COUNTs 0, 1, 3 (2 missing): SDUs 0 and 1 are delivered immediately,
after PDU 3 the reordering timer is running with `rx_reord = 4` and SDU
3 is withheld, and on timer expiry the handler force-delivers everything
buffered below `rx_reord` in ascending order (skipping the hole at 2),
so SDU 3 is delivered and `rx_deliv` becomes 4. -/
theorem scenario2_reordering :
    scenario2_st1.2.delivered.map Prod.fst = [0] ∧
    scenario2_st2.2.delivered.map Prod.fst = [1] ∧
    scenario2_st2.1.rxDeliv = 2 ∧
    scenario2_st3.2.delivered = [] ∧
    scenario2_st3.1.timerRunning = true ∧
    scenario2_st3.1.rxReord = 4 ∧
    scenario2_st3.1.rxDeliv = 2 ∧
    scenario2_st4.2.delivered.map Prod.fst = [3] ∧
    scenario2_st4.1.rxDeliv = 4 ∧
    scenario2_st4.1.timerRunning = false := by decide

/-- Counterexample to C6 as stated: under the null integrity algorithm
NIA0, the recomputed MAC is all zeros and the byte-for-byte comparison
is skipped entirely (TS 33.501 D.1), so a PDU whose carried MAC bytes
`1,2,3,4` differ from the recomputed all-zero MAC is *not* dropped: the
integrity-failure counter stays 0 and the SDU is accepted and
delivered. -/
theorem integrity_failure_nia0_counterexample :
    scenario3_cfg_nia0.integrityEnabled = true ∧
    (rx_deciphered_sdu_and_mac null_prims scenario3_cfg_nia0 scenario3_pdu 0).2 =
      { m0 := 1, m1 := 2, m2 := 3, m3 := 4 } ∧
    mac_eq { m0 := 1, m1 := 2, m2 := 3, m3 := 4 } {} = false ∧
    (handle_data_pdu null_prims scenario3_cfg_nia0 {} scenario3_pdu).2.integrityFailedPdus = 0 ∧
    (handle_data_pdu null_prims scenario3_cfg_nia0 {} scenario3_pdu).2.delivered.map
      Prod.fst = [0] ∧
    (handle_data_pdu null_prims scenario3_cfg_nia0 {} scenario3_pdu).1.rxDeliv = 1 := by
  decide

/-- C6 amended: for every received data PDU that reaches the integrity
step (parses, COUNT below the hard maximum) and whose integrity
verification fails — i.e. the recomputed MAC differs byte-for-byte from
the carried one, which can only happen for a non-null algorithm since
NIA0 verification always passes — `handle_data_pdu` drops the PDU,
increments only the integrity-failure counter (not the general drop
counter), leaves `rx_deliv`, `rx_next`, `rx_reord`, the window and the
reordering timer unchanged, and performs no control-plane escalation. -/
theorem integrity_failure_drop (prims : SecPrims) (cfg : RxConfig) (s : RxState)
    (pdu : List Nat) (sn : Nat)
    (hint : cfg.integrityEnabled = true)
    (hlen : hdr_len_bytes cfg.snSize < pdu.length)
    (hsn : read_data_pdu_header cfg pdu = some sn)
    (hhard : rcvd_count_rx cfg.snSize s.rxDeliv sn < cfg.maxCountHard)
    (hfail : integrity_verify prims cfg
        (rx_deciphered_sdu_and_mac prims cfg pdu (rcvd_count_rx cfg.snSize s.rxDeliv sn)).1
        (rcvd_count_rx cfg.snSize s.rxDeliv sn)
        (rx_deciphered_sdu_and_mac prims cfg pdu (rcvd_count_rx cfg.snSize s.rxDeliv sn)).2
      = false) :
    (handle_data_pdu prims cfg s pdu).1.rxDeliv = s.rxDeliv ∧
    (handle_data_pdu prims cfg s pdu).1.rxNext = s.rxNext ∧
    (handle_data_pdu prims cfg s pdu).1.rxReord = s.rxReord ∧
    (handle_data_pdu prims cfg s pdu).1.window = s.window ∧
    (handle_data_pdu prims cfg s pdu).1.timerRunning = s.timerRunning ∧
    (handle_data_pdu prims cfg s pdu).2.integrityFailedPdus = 1 ∧
    (handle_data_pdu prims cfg s pdu).2.droppedPdus = 0 ∧
    (handle_data_pdu prims cfg s pdu).2.protocolFailures = 0 ∧
    (handle_data_pdu prims cfg s pdu).2.delivered = [] := by
  have hpdu :
      handle_data_pdu prims cfg s pdu =
        (if (cfg.maxCountNotify < rcvd_count_rx cfg.snSize s.rxDeliv sn && !s.maxCountNotified) then
           { s with maxCountNotified := true } else s,
         { maxCountNotifications :=
             if (cfg.maxCountNotify < rcvd_count_rx cfg.snSize s.rxDeliv sn && !s.maxCountNotified) then 1 else 0,
           integrityFailedPdus := 1 }) := by
    unfold handle_data_pdu
    rw [if_neg (by omega), hsn]
    dsimp only
    rw [if_neg (by omega), hint, hfail]
    rfl
  rw [hpdu]
  split <;> simp

/-- Witness for C6 (amended): scenario 3's PDU under NIA2 with all-zero
recomputed MACs and carried MAC bytes `1,2,3,4`. -/
theorem integrity_failure_drop_witness :
    (scenario3_cfg.integrityEnabled = true ∧
     hdr_len_bytes scenario3_cfg.snSize < scenario3_pdu.length ∧
     read_data_pdu_header scenario3_cfg scenario3_pdu = some 0 ∧
     rcvd_count_rx scenario3_cfg.snSize (0 : Nat) 0 < scenario3_cfg.maxCountHard ∧
     integrity_verify null_prims scenario3_cfg
       (rx_deciphered_sdu_and_mac null_prims scenario3_cfg scenario3_pdu
         (rcvd_count_rx scenario3_cfg.snSize (({} : RxState)).rxDeliv 0)).1
       (rcvd_count_rx scenario3_cfg.snSize (({} : RxState)).rxDeliv 0)
       (rx_deciphered_sdu_and_mac null_prims scenario3_cfg scenario3_pdu
         (rcvd_count_rx scenario3_cfg.snSize (({} : RxState)).rxDeliv 0)).2 = false) ∧
    ((handle_data_pdu null_prims scenario3_cfg {} scenario3_pdu).1.rxDeliv =
       (({} : RxState)).rxDeliv ∧
     (handle_data_pdu null_prims scenario3_cfg {} scenario3_pdu).2.integrityFailedPdus = 1 ∧
     (handle_data_pdu null_prims scenario3_cfg {} scenario3_pdu).2.droppedPdus = 0) :=
  ⟨⟨rfl, by decide, by decide, by decide, by decide⟩,
   (integrity_failure_drop null_prims scenario3_cfg {} scenario3_pdu 0
      rfl (by decide) (by decide) (by decide) (by decide)).1,
   (integrity_failure_drop null_prims scenario3_cfg {} scenario3_pdu 0
      rfl (by decide) (by decide) (by decide) (by decide)).2.2.2.2.2.1,
   (integrity_failure_drop null_prims scenario3_cfg {} scenario3_pdu 0
      rfl (by decide) (by decide) (by decide) (by decide)).2.2.2.2.2.2.2.1⟩

/-- Folding the bit-accumulator over a list splits into the shifted
accumulator plus the value of the list. -/
theorem bits_to_nat_foldl (l : List Bool) :
    ∀ a : Nat,
      List.foldl (fun a b => 2 * a + (if b then 1 else 0)) a l =
        a * 2 ^ l.length + bits_to_nat l := by
  induction l with
  | nil => intro a; simp [bits_to_nat]
  | cons b t ih =>
    intro a
    have hbt : bits_to_nat (b :: t) =
        (2 * 0 + (if b then 1 else 0)) * 2 ^ t.length + bits_to_nat t := by
      show List.foldl _ _ (b :: t) = _
      rw [List.foldl_cons, ih]
    rw [List.foldl_cons, ih, hbt]
    cases b
    all_goals simp
    all_goals ring

/-- `pack_bits` produces exactly `n` bits. -/
theorem pack_bits_length (v : Nat) : ∀ n, (pack_bits v n).length = n := by
  intro n
  induction n with
  | zero => rfl
  | succ n ih => simp [pack_bits, ih]

/-- Round-trip: decoding the MSB-first packing of the low `n` bits of
`v` yields `v mod 2^n`. -/
theorem bits_to_nat_pack_bits (v : Nat) :
    ∀ n, bits_to_nat (pack_bits v n) = v % 2 ^ n := by
  intro n
  induction n with
  | zero => simp [pack_bits, bits_to_nat, Nat.mod_one]
  | succ n ih =>
    show bits_to_nat (v.testBit n :: pack_bits v n) = v % 2 ^ (n + 1)
    have hcons : bits_to_nat (v.testBit n :: pack_bits v n) =
        (2 * 0 + (if v.testBit n then 1 else 0)) * 2 ^ (pack_bits v n).length +
          bits_to_nat (pack_bits v n) := by
      show List.foldl _ _ _ = _
      rw [List.foldl_cons, bits_to_nat_foldl]
    rw [hcons, pack_bits_length, ih]
    have hpow : (2 : Nat) ^ (n + 1) = 2 ^ n * 2 := by ring
    rw [hpow, Nat.mod_mul, Nat.testBit_to_div_mod]
    rcases Nat.mod_two_eq_zero_or_one (v / 2 ^ n) with h | h
    all_goals simp [h]
    all_goals ring

/-- C5: `compile_status_report` produces the 8 header bits (D/C =
control, CPT = status report, reserved zero), a 32-bit FMC field whose
decoded value is `rx_deliv`, and a bitmap of one bit per COUNT from
`rx_deliv + 1` up to `rx_next`, truncated to
`(max_control_pdu_size - 5) * 8` bits, where bit `i` is set iff the
window holds an entry at `FMC + 1 + i`. -/
theorem status_report_compilation (cfg : RxConfig) (s : RxState)
    (hdeliv : s.rxDeliv + 1 < U32) :
    compile_status_report cfg s =
      List.replicate 8 false ++ pack_bits s.rxDeliv 32 ++
        (List.range' (s.rxDeliv + 1)
          (min (s.rxNext - (s.rxDeliv + 1)) ((pdcp_control_pdu_max_size - 5) * 8))).map
          (fun i => has_sn cfg.W s.window i) ∧
    bits_to_nat (pack_bits s.rxDeliv 32) = s.rxDeliv ∧
    (∀ i : Nat,
      i < min (s.rxNext - (s.rxDeliv + 1)) ((pdcp_control_pdu_max_size - 5) * 8) →
      ((List.range' (s.rxDeliv + 1)
          (min (s.rxNext - (s.rxDeliv + 1)) ((pdcp_control_pdu_max_size - 5) * 8))).map
          (fun i => has_sn cfg.W s.window i)).getD i false =
        has_sn cfg.W s.window (s.rxDeliv + 1 + i)) := by
  refine ⟨?_, ?_, ?_⟩
  · unfold compile_status_report
    rw [Nat.mod_eq_of_lt hdeliv]
    dsimp only
    have hlen :
        (if (s.rxDeliv + 1) < s.rxNext ∧
             (pdcp_control_pdu_max_size - 5) * 8 < s.rxNext - (s.rxDeliv + 1) then
           (s.rxDeliv + 1) + (pdcp_control_pdu_max_size - 5) * 8
         else s.rxNext) - (s.rxDeliv + 1) =
        min (s.rxNext - (s.rxDeliv + 1)) ((pdcp_control_pdu_max_size - 5) * 8) := by
      split_ifs with h <;> omega
    rw [hlen]
    rfl
  · rw [bits_to_nat_pack_bits]
    exact Nat.mod_eq_of_lt (by unfold U32 at hdeliv; omega)
  · intro i hi
    rw [List.getD_eq_getElem?_getD, List.getElem?_map, List.getElem?_range']
    · simp
    · omega

/-- Witness for C5: a receiver at `rx_deliv = 2`, `rx_next = 6` holding
COUNTs 3 and 5 (bitmap `[1,0,1]`). -/
theorem status_report_compilation_witness :
    ((2 : Nat) + 1 < U32) ∧
    (compile_status_report scenario2_cfg
       { rxDeliv := 2, rxNext := 6,
         window := add_sn 2048 (add_sn 2048 empty_window 3 (RxEntry.mk 3 [])) 5 (RxEntry.mk 5 []) } =
      List.replicate 8 false ++ pack_bits 2 32 ++
        (List.range' 3 (min (6 - 3) ((pdcp_control_pdu_max_size - 5) * 8))).map
          (fun i => has_sn scenario2_cfg.W
            (add_sn 2048 (add_sn 2048 empty_window 3 (RxEntry.mk 3 [])) 5 (RxEntry.mk 5 [])) i) ∧
     bits_to_nat (pack_bits 2 32) = 2 ∧
     (∀ i : Nat, i < min (6 - 3) ((pdcp_control_pdu_max_size - 5) * 8) →
       ((List.range' 3 (min (6 - 3) ((pdcp_control_pdu_max_size - 5) * 8))).map
          (fun i => has_sn scenario2_cfg.W
            (add_sn 2048 (add_sn 2048 empty_window 3 (RxEntry.mk 3 [])) 5 (RxEntry.mk 5 [])) i)).getD i false =
         has_sn scenario2_cfg.W
           (add_sn 2048 (add_sn 2048 empty_window 3 (RxEntry.mk 3 [])) 5 (RxEntry.mk 5 [])) (3 + i))) :=
  ⟨by decide,
   status_report_compilation scenario2_cfg
     { rxDeliv := 2, rxNext := 6,
       window := add_sn 2048 (add_sn 2048 empty_window 3 (RxEntry.mk 3 [])) 5 (RxEntry.mk 5 []) }
     (by decide)⟩

/-- The `tx_next_ack` advance loop never moves backwards and never
passes `tx_next`. -/
theorem advance_tx_next_ack_bounds (W : Nat) (w : Window Nat) (txNext : Nat) :
    ∀ ack, ack ≤ txNext →
      ack ≤ advance_tx_next_ack W w txNext ack ∧
      advance_tx_next_ack W w txNext ack ≤ txNext := by
  have H : ∀ (fuel ack : Nat), txNext - ack ≤ fuel → ack ≤ txNext →
      ack ≤ advance_tx_next_ack W w txNext ack ∧
      advance_tx_next_ack W w txNext ack ≤ txNext := by
    intro fuel
    induction fuel with
    | zero =>
      intro ack h1 h2
      unfold advance_tx_next_ack
      rw [dif_neg (fun hc => absurd hc.1 (by omega))]
      omega
    | succ f ih =>
      intro ack h1 h2
      unfold advance_tx_next_ack
      by_cases hc : ack < txNext ∧ has_sn W w ack = false
      · rw [dif_pos hc]
        have := ih (ack + 1) (by omega) (by omega)
        omega
      · rw [dif_neg hc]
        omega
  exact fun ack h => H (txNext - ack) ack (le_refl _) h

/-- The `stop_discard_timer` loop only moves `tx_next_ack` forward and
at most one past `highest_count`. -/
theorem stop_discard_loop_ack_bounds (W highest : Nat) :
    ∀ (w : Window Nat) (ack : Nat),
      ack ≤ (stop_discard_loop W highest w ack).2 ∧
      (stop_discard_loop W highest w ack).2 ≤ max ack (highest + 1) := by
  have H : ∀ (fuel : Nat) (w : Window Nat) (ack : Nat), highest + 1 - ack ≤ fuel →
      ack ≤ (stop_discard_loop W highest w ack).2 ∧
      (stop_discard_loop W highest w ack).2 ≤ max ack (highest + 1) := by
    intro fuel
    induction fuel with
    | zero =>
      intro w ack h1
      unfold stop_discard_loop
      rw [dif_neg (by omega)]
      simp
    | succ f ih =>
      intro w ack h1
      unfold stop_discard_loop
      by_cases hc : ack ≤ highest
      · rw [dif_pos hc]
        dsimp only
        have := ih (if has_sn W w ack then remove_sn W w ack else w) (ack + 1) (by omega)
        omega
      · rw [dif_neg hc]
        simp
  exact fun w ack => H (highest + 1 - ack) w ack (le_refl _)

/-- `discard_pdu` never changes `tx_next`. -/
theorem discard_pdu_txNext (cfg : TxConfig) (s : TxState) (c : Nat) :
    (discard_pdu cfg s c).1.txNext = s.txNext := by
  unfold discard_pdu
  split_ifs <;> rfl

/-- `discard_pdu` preserves the counter ordering. -/
theorem discard_pdu_inv (cfg : TxConfig) (s : TxState) (c : Nat) (h : TxInv s) :
    TxInv (discard_pdu cfg s c).1 := by
  unfold discard_pdu
  split_ifs with h1 h2 h3
  · exact h
  · exact h
  · exact h
  · obtain ⟨ha, hb⟩ := h
    have hbd := advance_tx_next_ack_bounds cfg.W (remove_sn cfg.W s.window c)
      s.txNext s.txNextAck (by omega)
    constructor
    · show (advance_tx_next_ack _ _ _ _) ≤ (if s.txTrans < _ then _ else _)
      split_ifs <;> omega
    · show (if s.txTrans < _ then _ else _) ≤ s.txNext
      split_ifs <;> omega

/-- `stop_discard_timer` preserves the counter ordering. -/
theorem stop_discard_timer_inv (cfg : TxConfig) (s : TxState) (c : Nat) (h : TxInv s) :
    TxInv (stop_discard_timer cfg s c) := by
  unfold stop_discard_timer
  split_ifs with h1 h2
  · exact h
  · exact h
  · obtain ⟨ha, hb⟩ := h
    have hbd := stop_discard_loop_ack_bounds cfg.W c s.window s.txNextAck
    constructor
    · show (stop_discard_loop _ _ _ _).2 ≤ (if s.txTrans < _ then _ else _)
      split_ifs <;> omega
    · show (if s.txTrans < _ then _ else _) ≤ s.txNext
      split_ifs <;> omega


/-- `handle_transmit_notification` preserves the counter ordering: it
sets `tx_trans = notif_count + 1` only after checking
`tx_trans ≤ notif_count < tx_next`. -/
theorem handle_transmit_notification_inv (cfg : TxConfig) (s : TxState) (sn : Nat)
    (h : TxInv s) : TxInv (handle_transmit_notification cfg s sn) := by
  obtain ⟨ha, hb⟩ := h
  have h : TxInv s := ⟨ha, hb⟩
  unfold handle_transmit_notification
  dsimp only
  split_ifs with h1 h2 h3 h4 h5
  · exact h
  · exact h
  · exact h
  · exact ⟨by dsimp only; omega, by dsimp only; omega⟩
  · exact stop_discard_timer_inv cfg _ _ ⟨by dsimp only; omega, by dsimp only; omega⟩
  · exact ⟨by dsimp only; omega, by dsimp only; omega⟩

/-- `handle_delivery_notification` preserves the counter ordering. -/
theorem handle_delivery_notification_inv (cfg : TxConfig) (s : TxState) (sn : Nat)
    (h : TxInv s) : TxInv (handle_delivery_notification cfg s sn) := by
  obtain ⟨ha, hb⟩ := h
  have h : TxInv s := ⟨ha, hb⟩
  unfold handle_delivery_notification
  dsimp only
  split_ifs with h1 h2 h3 h4
  · exact h
  · exact h
  · exact h
  · exact stop_discard_timer_inv cfg _ _ h
  · exact h


/-- The TX-window insertion step preserves the counter ordering and
leaves `tx_next` unchanged. -/
theorem tx_window_insert_facts (cfg : TxConfig) (t : TxState) (h : TxInv t) :
    TxInv (tx_window_insert cfg t).1 ∧ (tx_window_insert cfg t).1.txNext = t.txNext := by
  unfold tx_window_insert
  by_cases hd : cfg.discardTimer.isSome = true
  · rw [if_pos hd]
    rcases hget : wnd_get cfg.W t.window t.txNext with _ | old
    · dsimp only
      obtain ⟨ha, hb⟩ := h
      exact ⟨⟨ha, hb⟩, rfl⟩
    · dsimp only
      rcases hdp : discard_pdu cfg t old with ⟨s2a, d⟩
      dsimp only
      have hi : TxInv s2a := by
        have := discard_pdu_inv cfg t old h
        rw [hdp] at this
        exact this
      have hn : s2a.txNext = t.txNext := by
        have := discard_pdu_txNext cfg t old
        rw [hdp] at this
        exact this
      obtain ⟨hia, hib⟩ := hi
      exact ⟨⟨hia, hib⟩, hn⟩
  · rw [if_neg hd]
    exact ⟨h, rfl⟩

/-- `handle_sdu` preserves the counter ordering (it only increments
`tx_next`, which cannot wrap below the hard maximum COUNT of a valid
32-bit configuration). -/
theorem handle_sdu_inv (cfg : TxConfig) (env : TxEnv) (s : TxState)
    (hcfg : cfg.maxCountHard < U32) (h : TxInv s) :
    TxInv (handle_sdu cfg env s).1 := by
  obtain ⟨ha, hb⟩ := h
  unfold handle_sdu
  by_cases h1 : s.txNext < s.txTrans
  · rw [if_pos h1]; exact ⟨ha, hb⟩
  rw [if_neg h1]
  by_cases h2 : cfg.rlcSduQueue ≤ s.txNext - s.txTrans
  · rw [if_pos h2]; exact ⟨ha, hb⟩
  rw [if_neg h2]
  by_cases h3 : cfg.W - 1 ≤ s.txNext - s.txTrans
  · rw [if_pos h3]; exact ⟨ha, hb⟩
  rw [if_neg h3]
  by_cases h4 : cfg.maxCountHard ≤ s.txNext
  · rw [if_pos h4]
    by_cases h5 : s.maxCountOverflow = true
    · rw [if_pos h5]; exact ⟨ha, hb⟩
    · rw [if_neg h5]; exact ⟨ha, hb⟩
  rw [if_neg h4]
  dsimp only
  have hfin : ∀ t : TxState, TxInv t → t.txNext = s.txNext →
      TxInv { (tx_window_insert cfg t).1 with
              txNext := ((tx_window_insert cfg t).1.txNext + 1) % U32 } := by
    intro t ht htn
    obtain ⟨⟨hta, htb⟩, hn⟩ := tx_window_insert_facts cfg t ht
    have hmod : ((tx_window_insert cfg t).1.txNext + 1) % U32 =
        (tx_window_insert cfg t).1.txNext + 1 := by
      apply Nat.mod_eq_of_lt
      unfold U32 at hcfg ⊢
      omega
    exact ⟨by dsimp only; omega, by dsimp only; rw [hmod]; omega⟩
  split_ifs
  all_goals first
    | exact ⟨ha, hb⟩
    | exact hfin _ ⟨ha, hb⟩ rfl


/-- The unconditional status-report discard loop preserves the counter
ordering. -/
theorem discard_range_inv (cfg : TxConfig) (fmc : Nat) :
    ∀ (count : Nat) (s : TxState), TxInv s →
      TxInv (discard_range cfg s count fmc).1 := by
  have H : ∀ (fuel count : Nat) (s : TxState), fmc - count ≤ fuel → TxInv s →
      TxInv (discard_range cfg s count fmc).1 := by
    intro fuel
    induction fuel with
    | zero =>
      intro count s h1 h
      unfold discard_range
      rw [dif_neg (by omega)]
      exact h
    | succ f ih =>
      intro count s h1 h
      unfold discard_range
      by_cases hc : count < fmc
      · rw [dif_pos hc]
        dsimp only
        rcases hdp : discard_pdu cfg s count with ⟨s1, d⟩
        have hi : TxInv s1 := by
          have := discard_pdu_inv cfg s count h
          rw [hdp] at this
          exact this
        exact ih (count + 1) s1 (by omega) hi
      · rw [dif_neg hc]
        exact h
  exact fun count s h => H (fmc - count) count s (le_refl _) h

/-- The status-report bitmap walk preserves the counter ordering. -/
theorem apply_bitmap_inv (cfg : TxConfig) :
    ∀ (bits : List Bool) (fmc : Nat) (s : TxState), TxInv s →
      TxInv (apply_bitmap cfg s fmc bits).1 := by
  intro bits
  induction bits with
  | nil => intro fmc s h; exact h
  | cons b rest ih =>
    intro fmc s h
    show TxInv (apply_bitmap cfg s fmc (b :: rest)).1
    unfold apply_bitmap
    dsimp only
    by_cases hb : b = true
    · rw [if_pos hb]
      dsimp only
      rcases hdp : discard_pdu cfg s ((fmc + 1) % U32) with ⟨s1, d⟩
      have hi : TxInv s1 := by
        have := discard_pdu_inv cfg s ((fmc + 1) % U32) h
        rw [hdp] at this
        exact this
      exact ih ((fmc + 1) % U32) s1 hi
    · rw [if_neg hb]
      exact ih ((fmc + 1) % U32) s h

/-- `handle_status_report` preserves the counter ordering. -/
theorem handle_status_report_inv (cfg : TxConfig) (s : TxState) (wire : List Bool)
    (h : TxInv s) : TxInv (handle_status_report cfg s wire).1 := by
  unfold handle_status_report
  rcases read_bits 1 wire with _ | ⟨dc, r1⟩
  · exact h
  dsimp only
  split_ifs with hdc
  · exact h
  rcases read_bits 3 r1 with _ | ⟨cpt, r2⟩
  · exact h
  dsimp only
  split_ifs with hcpt
  · exact h
  rcases read_bits 4 r2 with _ | ⟨res, r3⟩
  · exact h
  dsimp only
  split_ifs with hres
  · exact h
  rcases read_bits 32 r3 with _ | ⟨fmc, bitmap⟩
  · exact h
  dsimp only
  rcases hdr : discard_range cfg s s.txNextAck fmc with ⟨s1, d1⟩
  have hi1 : TxInv s1 := by
    have := discard_range_inv cfg fmc s.txNextAck s h
    rw [hdr] at this
    exact this
  rcases hab : apply_bitmap cfg s1 fmc bitmap with ⟨s2, d2⟩
  have hi2 : TxInv s2 := by
    have := apply_bitmap_inv cfg bitmap fmc s1 hi1
    rw [hab] at this
    exact this
  exact hi2

/-- `retransmit_all_pdus` preserves the counter ordering: it only
rewinds `tx_trans` to `tx_next_ack`. -/
theorem retransmit_all_pdus_inv (cfg : TxConfig) (env : TxEnv) (s : TxState)
    (h : TxInv s) : TxInv (retransmit_all_pdus cfg env s).1 := by
  obtain ⟨ha, hb⟩ := h
  unfold retransmit_all_pdus
  split_ifs with h1 h2
  · exact ⟨ha, hb⟩
  · exact ⟨ha, hb⟩
  · dsimp only
    rcases retransmit_loop cfg.W env s.window
      (List.range' s.txNextAck (s.txNext - s.txNextAck)) with ⟨pdus, pf⟩
    exact ⟨by dsimp only; omega, by dsimp only; omega⟩

/-- `reset` zeroes all counters, trivially restoring the ordering. -/
theorem tx_reset_inv (s : TxState) : TxInv (tx_reset s) :=
  ⟨Nat.le_refl 0, Nat.le_refl 0⟩


/-- C10: every public transmitter operation — `handle_sdu` (any
environment), transmit/delivery notifications, status-report handling,
discard-timer expiry, `retransmit_all_pdus` and `reset` — preserves the
ordering `tx_next_ack ≤ tx_trans ≤ tx_next`, for any valid 32-bit
configuration (`hard_max_count < 2^32`). -/
theorem tx_counter_ordering_invariant (cfg : TxConfig) (s : TxState)
    (hcfg : cfg.maxCountHard < U32) (h : TxInv s) :
    (∀ env : TxEnv, TxInv (handle_sdu cfg env s).1) ∧
    (∀ sn : Nat, TxInv (handle_transmit_notification cfg s sn)) ∧
    (∀ sn : Nat, TxInv (handle_delivery_notification cfg s sn)) ∧
    (∀ wire : List Bool, TxInv (handle_status_report cfg s wire).1) ∧
    (∀ c : Nat, TxInv (discard_callback cfg s c).1) ∧
    (∀ env : TxEnv, TxInv (retransmit_all_pdus cfg env s).1) ∧
    TxInv (tx_reset s) :=
  ⟨fun env => handle_sdu_inv cfg env s hcfg h,
   fun sn => handle_transmit_notification_inv cfg s sn h,
   fun sn => handle_delivery_notification_inv cfg s sn h,
   fun wire => handle_status_report_inv cfg s wire h,
   fun c => discard_pdu_inv cfg s c h,
   fun env => retransmit_all_pdus_inv cfg env s h,
   tx_reset_inv s⟩

/-- Witness for C10: a transmitter state `ack=1 ≤ trans=3 ≤ next=5`
under the scenario-1 configuration. -/
theorem tx_counter_ordering_invariant_witness :
    (scenario1_cfg.maxCountHard < U32 ∧
     TxInv { txNext := 5, txNextAck := 1, txTrans := 3 }) ∧
    ((∀ env : TxEnv,
        TxInv (handle_sdu scenario1_cfg env { txNext := 5, txNextAck := 1, txTrans := 3 }).1) ∧
     (∀ sn : Nat,
        TxInv (handle_transmit_notification scenario1_cfg { txNext := 5, txNextAck := 1, txTrans := 3 } sn)) ∧
     (∀ sn : Nat,
        TxInv (handle_delivery_notification scenario1_cfg { txNext := 5, txNextAck := 1, txTrans := 3 } sn)) ∧
     (∀ wire : List Bool,
        TxInv (handle_status_report scenario1_cfg { txNext := 5, txNextAck := 1, txTrans := 3 } wire).1) ∧
     (∀ c : Nat,
        TxInv (discard_callback scenario1_cfg { txNext := 5, txNextAck := 1, txTrans := 3 } c).1) ∧
     (∀ env : TxEnv,
        TxInv (retransmit_all_pdus scenario1_cfg env { txNext := 5, txNextAck := 1, txTrans := 3 }).1) ∧
     TxInv (tx_reset { txNext := 5, txNextAck := 1, txTrans := 3 })) :=
  ⟨⟨by decide, by decide, by decide⟩,
   tx_counter_ordering_invariant scenario1_cfg
     { txNext := 5, txNextAck := 1, txTrans := 3 }
     (by decide) ⟨by decide, by decide⟩⟩

/-- The in-order delivery loop preserves receiver well-formedness and
never changes `rx_next`. -/
theorem deliver_consecutive_wf (W : Nat) :
    ∀ (fuel : Nat) (s : RxState), RxWf W s →
      RxWf W (deliver_consecutive W fuel s).1 ∧
      (deliver_consecutive W fuel s).1.rxNext = s.rxNext := by
  intro fuel
  induction fuel with
  | zero => intro s h; exact ⟨h, rfl⟩
  | succ f ih =>
    intro s h
    obtain ⟨h1, h2, h3⟩ := h
    show RxWf W (deliver_consecutive W (f + 1) s).1 ∧ _
    unfold deliver_consecutive
    by_cases hD : s.rxDeliv = s.rxNext
    · rw [if_pos hD]
      exact ⟨⟨h1, h2, h3⟩, rfl⟩
    rw [if_neg hD]
    rcases hget : wnd_get W s.window s.rxDeliv with _ | e
    · exact ⟨⟨h1, h2, h3⟩, rfl⟩
    · dsimp only
      have hwf' : RxWf W { s with window := remove_sn W s.window s.rxDeliv,
                                  rxDeliv := s.rxDeliv + 1 } := by
        refine ⟨by dsimp only; omega, by dsimp only; omega, ?_⟩
        intro i e' hi
        dsimp only at hi ⊢
        unfold remove_sn at hi
        by_cases hieq : i = s.rxDeliv % W
        · rw [if_pos hieq] at hi
          cases hi
        · rw [if_neg hieq] at hi
          obtain ⟨hc1, hc2⟩ := h3 i e' hi
          refine ⟨hc1, ?_⟩
          rcases Nat.lt_or_ge s.rxDeliv e'.count with hlt | hge
          · omega
          · have : e'.count = s.rxDeliv := by omega
            rw [this] at hc1
            exact absurd (hc1.symm ▸ hieq) (by simp [hc1])
      have := ih _ hwf'
      rcases hrec : deliver_consecutive W f
          { s with window := remove_sn W s.window s.rxDeliv,
                   rxDeliv := s.rxDeliv + 1 } with ⟨s'', ds⟩
      rw [hrec] at this
      exact ⟨this.1, this.2⟩


/-- The forced-delivery loop of the reordering-timer expiry handler
preserves receiver well-formedness and never changes `rx_next`. -/
theorem force_deliver_wf (W : Nat) :
    ∀ (fuel : Nat) (s : RxState), fuel ≤ s.rxReord - s.rxDeliv → RxWf W s →
      RxWf W (force_deliver W fuel s).1 ∧
      (force_deliver W fuel s).1.rxNext = s.rxNext := by
  intro fuel
  induction fuel with
  | zero => intro s hf h; exact ⟨h, rfl⟩
  | succ f ih =>
    intro s hf h
    obtain ⟨h1, h2, h3⟩ := h
    show RxWf W (force_deliver W (f + 1) s).1 ∧ _
    unfold force_deliver
    by_cases hD : s.rxDeliv = s.rxReord
    · rw [if_pos hD]
      exact ⟨⟨h1, h2, h3⟩, rfl⟩
    rw [if_neg hD]
    have hdr : s.rxDeliv < s.rxReord := by omega
    rcases hget : wnd_get W s.window s.rxDeliv with _ | e
    · dsimp only
      have hwf' : RxWf W { s with window := s.window, rxDeliv := s.rxDeliv + 1 } := by
        refine ⟨by dsimp only; omega, by dsimp only; omega, ?_⟩
        intro i e' hi
        dsimp only at hi ⊢
        obtain ⟨hc1, hc2⟩ := h3 i e' hi
        refine ⟨hc1, ?_⟩
        rcases Nat.lt_or_ge s.rxDeliv e'.count with hlt | hge
        · omega
        · exfalso
          have hceq : e'.count = s.rxDeliv := by omega
          unfold wnd_get at hget
          rw [hceq] at hc1
          rw [hc1] at hget
          rw [hget] at hi
          cases hi
      have := ih _ (by dsimp only; omega) hwf'
      rcases hrec : force_deliver W f
          { s with window := s.window, rxDeliv := s.rxDeliv + 1 } with ⟨s'', ds⟩
      rw [hrec] at this
      exact ⟨this.1, this.2⟩
    · dsimp only
      have hwf' : RxWf W { s with window := remove_sn W s.window s.rxDeliv,
                                  rxDeliv := s.rxDeliv + 1 } := by
        refine ⟨by dsimp only; omega, by dsimp only; omega, ?_⟩
        intro i e' hi
        dsimp only at hi ⊢
        unfold remove_sn at hi
        by_cases hieq : i = s.rxDeliv % W
        · rw [if_pos hieq] at hi
          cases hi
        · rw [if_neg hieq] at hi
          obtain ⟨hc1, hc2⟩ := h3 i e' hi
          refine ⟨hc1, ?_⟩
          rcases Nat.lt_or_ge s.rxDeliv e'.count with hlt | hge
          · omega
          · exfalso
            have hceq : e'.count = s.rxDeliv := by omega
            rw [hceq] at hc1
            exact hieq (hc1 ▸ rfl)
      have := ih _ (by dsimp only; omega) hwf'
      rcases hrec : force_deliver W f
          { s with window := remove_sn W s.window s.rxDeliv,
                   rxDeliv := s.rxDeliv + 1 } with ⟨s'', ds⟩
      rw [hrec] at this
      exact ⟨this.1, this.2⟩


/-- The reordering-timer expiry handler preserves receiver
well-formedness. -/
theorem handle_t_reordering_expire_wf (cfg : RxConfig) (s : RxState)
    (h : RxWf cfg.W s) :
    RxWf cfg.W (handle_t_reordering_expire cfg s).1 := by
  unfold handle_t_reordering_expire
  dsimp only
  have hfd := force_deliver_wf cfg.W (s.rxReord - s.rxDeliv) s (le_refl _) h
  rcases hfd1 : force_deliver cfg.W (s.rxReord - s.rxDeliv) s with ⟨s1, d1⟩
  rw [hfd1] at hfd
  dsimp only
  unfold deliver_all_consecutive_counts
  have hdc := deliver_consecutive_wf cfg.W (s1.rxNext - s1.rxDeliv) s1 hfd.1
  rcases hdc1 : deliver_consecutive cfg.W (s1.rxNext - s1.rxDeliv) s1 with ⟨s2, d2⟩
  rw [hdc1] at hdc
  dsimp only
  obtain ⟨⟨w1, w2, w3⟩, _⟩ := hdc
  split_ifs with hA hB
  · exact ⟨w1, w2, w3⟩
  · exact ⟨by dsimp only; omega, by dsimp only; omega, by dsimp only; exact w3⟩
  · exact ⟨w1, w2, w3⟩

/-- The reordering-timer callback preserves receiver well-formedness. -/
theorem reordering_timer_fire_wf (cfg : RxConfig) (s : RxState)
    (h : RxWf cfg.W s) :
    RxWf cfg.W (reordering_timer_fire cfg s).1 := by
  unfold reordering_timer_fire
  exact handle_t_reordering_expire_wf cfg _ ⟨h.1, h.2.1, h.2.2⟩

/-- Removing a window slot preserves receiver well-formedness. -/
theorem remove_sn_wf (W : Nat) (s : RxState) (c : Nat) (h : RxWf W s) :
    RxWf W { s with window := remove_sn W s.window c } := by
  obtain ⟨h1, h2, h3⟩ := h
  refine ⟨h1, h2, ?_⟩
  intro i e hi
  dsimp only at hi ⊢
  unfold remove_sn at hi
  by_cases hieq : i = c % W
  · rw [if_pos hieq] at hi; cases hi
  · rw [if_neg hieq] at hi; exact h3 i e hi

/-- Storing a COUNT at or above `rx_deliv` and running delivery and the
timer bookkeeping preserves receiver well-formedness. -/
theorem rx_store_and_deliver_wf (cfg : RxConfig) (sIn : RxState)
    (rcvdCount : Nat) (sdu : List Nat) (h : RxWf cfg.W sIn)
    (hge : sIn.rxDeliv ≤ rcvdCount) :
    RxWf cfg.W (rx_store_and_deliver cfg sIn rcvdCount sdu).1 := by
  obtain ⟨h1, h2, h3⟩ := h
  unfold rx_store_and_deliver
  dsimp only
  -- well-formedness after insertion and rx_next update
  have hwf4 : RxWf cfg.W
      (if ({ sIn with window := add_sn cfg.W sIn.window rcvdCount ⟨rcvdCount, sdu⟩ } : RxState).rxNext ≤ rcvdCount then
         { sIn with window := add_sn cfg.W sIn.window rcvdCount ⟨rcvdCount, sdu⟩,
                    rxNext := rcvdCount + 1 }
       else { sIn with window := add_sn cfg.W sIn.window rcvdCount ⟨rcvdCount, sdu⟩ }) := by
    have hwin : ∀ (i : Nat) (e : RxEntry),
        add_sn cfg.W sIn.window rcvdCount ⟨rcvdCount, sdu⟩ i = some e →
        e.count % cfg.W = i ∧ sIn.rxDeliv ≤ e.count := by
      intro i e hi
      unfold add_sn at hi
      by_cases hieq : i = rcvdCount % cfg.W
      · rw [if_pos hieq] at hi
        cases hi
        exact ⟨hieq.symm, hge⟩
      · rw [if_neg hieq] at hi
        exact h3 i e hi
    split_ifs with hnx
    · dsimp only at hnx
      exact ⟨by dsimp only; omega, by dsimp only; omega, hwin⟩
    · dsimp only at hnx
      exact ⟨by dsimp only; omega, by dsimp only; omega, hwin⟩
  -- name the post-update state
  generalize hs4 :
      (if ({ sIn with window := add_sn cfg.W sIn.window rcvdCount ⟨rcvdCount, sdu⟩ } : RxState).rxNext ≤ rcvdCount then
         { sIn with window := add_sn cfg.W sIn.window rcvdCount ⟨rcvdCount, sdu⟩,
                    rxNext := rcvdCount + 1 }
       else { sIn with window := add_sn cfg.W sIn.window rcvdCount ⟨rcvdCount, sdu⟩ }) = s4 at hwf4 ⊢
  -- delivery
  have hdel : RxWf cfg.W
      (if rcvdCount = s4.rxDeliv then deliver_all_consecutive_counts cfg.W s4
       else (s4, [])).1 := by
    split_ifs with hc
    · unfold deliver_all_consecutive_counts
      exact (deliver_consecutive_wf cfg.W (s4.rxNext - s4.rxDeliv) s4 hwf4).1
    · exact hwf4
  rcases hp5 : (if rcvdCount = s4.rxDeliv then deliver_all_consecutive_counts cfg.W s4
                else (s4, [])) with ⟨s5, ds⟩
  rw [hp5] at hdel
  dsimp only
  obtain ⟨w1, w2, w3⟩ := hdel
  -- timer stop bookkeeping never touches the counters or window
  have hs6 : RxWf cfg.W
      (if s5.timerRunning && s5.rxReord ≤ s5.rxDeliv then
         { s5 with timerRunning := false } else s5) := by
    split_ifs with hc
    · exact ⟨w1, w2, w3⟩
    · exact ⟨w1, w2, w3⟩
  generalize hgs6 :
      (if s5.timerRunning && s5.rxReord ≤ s5.rxDeliv then
         { s5 with timerRunning := false } else s5) = s6 at hs6 ⊢
  rcases cfg.tReordering with _ | t
  · -- ms0: inline expiry after setting rx_reord := rx_next
    dsimp only
    have := handle_t_reordering_expire_wf cfg { s6 with rxReord := s6.rxNext }
      ⟨by dsimp only; exact hs6.1, by dsimp only; omega, by dsimp only; exact hs6.2.2⟩
    rcases hp8 : handle_t_reordering_expire cfg { s6 with rxReord := s6.rxNext } with ⟨s8, ev⟩
    rw [hp8] at this
    exact this
  · -- finite timer
    dsimp only
    split_ifs with hc
    · exact ⟨by dsimp only; exact hs6.1, by dsimp only; omega, by dsimp only; exact hs6.2.2⟩
    · exact hs6
  · -- infinity
    dsimp only
    exact hs6

/-- The duplicate/stale filtering plus store-and-deliver step preserves
receiver well-formedness: a COUNT below `rx_deliv` is rejected before
any insertion. -/
theorem rx_window_and_deliver_wf (cfg : RxConfig) (s : RxState)
    (rcvdCount : Nat) (sdu : List Nat) (h : RxWf cfg.W s) :
    RxWf cfg.W (rx_window_and_deliver cfg s rcvdCount sdu).1 := by
  unfold rx_window_and_deliver
  by_cases hlow : rcvdCount < s.rxDeliv
  · rw [if_pos hlow]; exact h
  rw [if_neg hlow]
  rcases hget : wnd_get cfg.W s.window rcvdCount with _ | e
  · exact rx_store_and_deliver_wf cfg s rcvdCount sdu h (by omega)
  · dsimp only
    split_ifs with hdup
    · exact h
    · exact rx_store_and_deliver_wf cfg _ rcvdCount sdu
        (remove_sn_wf cfg.W s rcvdCount h) (by dsimp only; omega)


/-- `handle_data_pdu` preserves receiver well-formedness for every
incoming PDU. -/
theorem handle_data_pdu_wf (prims : SecPrims) (cfg : RxConfig) (s : RxState)
    (pdu : List Nat) (h : RxWf cfg.W s) :
    RxWf cfg.W (handle_data_pdu prims cfg s pdu).1 := by
  obtain ⟨h1, h2, h3⟩ := h
  unfold handle_data_pdu
  by_cases hA : pdu.length ≤ hdr_len_bytes cfg.snSize
  · rw [if_pos hA]; exact ⟨h1, h2, h3⟩
  rw [if_neg hA]
  rcases hsn : read_data_pdu_header cfg pdu with _ | sn
  · exact ⟨h1, h2, h3⟩
  dsimp only
  split_ifs <;>
    first
    | exact ⟨h1, h2, h3⟩
    | exact rx_window_and_deliver_wf cfg s _ _ ⟨h1, h2, h3⟩
    | exact rx_window_and_deliver_wf cfg
        { s with maxCountNotified := true } _ _ ⟨h1, h2, h3⟩


/-- C8: every receiver operation — `handle_data_pdu` on any PDU,
in-order delivery, and the reordering-timer expiry (inline or fired) —
preserves `rx_deliv ≤ rx_next`, and afterwards the RX window holds no
entry with COUNT below `rx_deliv` (the invariant proved is the
strengthened form also recording `rx_reord ≤ rx_next` and that each
entry sits in its own slot, which the preservation argument needs). -/
theorem rx_state_invariant (prims : SecPrims) (cfg : RxConfig) (s : RxState)
    (h : RxWf cfg.W s) :
    (∀ pdu : List Nat, RxWf cfg.W (handle_data_pdu prims cfg s pdu).1) ∧
    RxWf cfg.W (deliver_all_consecutive_counts cfg.W s).1 ∧
    RxWf cfg.W (handle_t_reordering_expire cfg s).1 ∧
    RxWf cfg.W (reordering_timer_fire cfg s).1 :=
  ⟨fun pdu => handle_data_pdu_wf prims cfg s pdu h,
   (deliver_consecutive_wf cfg.W (s.rxNext - s.rxDeliv) s h).1,
   handle_t_reordering_expire_wf cfg s h,
   reordering_timer_fire_wf cfg s h⟩

/-- C8: every receiver operation — `handle_data_pdu` on any PDU,
in-order delivery, and the reordering-timer expiry (inline or fired) —
preserves `rx_deliv ≤ rx_next`, and afterwards the RX window holds no
entry with COUNT below `rx_deliv` (the invariant proved is the
strengthened form also recording `rx_reord ≤ rx_next` and that each
entry sits in its own slot, which the preservation argument needs). -/
theorem rx_state_invariant_witness :
    RxWf scenario2_cfg.W ({} : RxState) ∧
    ((∀ pdu : List Nat,
        RxWf scenario2_cfg.W (handle_data_pdu null_prims scenario2_cfg {} pdu).1) ∧
     RxWf scenario2_cfg.W (deliver_all_consecutive_counts scenario2_cfg.W {}).1 ∧
     RxWf scenario2_cfg.W (handle_t_reordering_expire scenario2_cfg {}).1 ∧
     RxWf scenario2_cfg.W (reordering_timer_fire scenario2_cfg {}).1) :=
  ⟨⟨by decide, by decide, fun i e hi => by simp [empty_window] at hi⟩,
   rx_state_invariant null_prims scenario2_cfg {}
     ⟨by decide, by decide, fun i e hi => by simp [empty_window] at hi⟩⟩

/-- Two numbers within one window span of each other that share a slot
are equal (the injectivity behind keying the window by `COUNT mod W`). -/
theorem eq_of_mod_eq_of_close (W a b : Nat) (h : a % W = b % W)
    (hab : a < b + W) (hba : b < a + W) : a = b := by
  by_cases hW : W = 0
  · subst hW
    rw [Nat.mod_zero, Nat.mod_zero] at h
    exact h
  have hWpos : 0 < W := Nat.pos_of_ne_zero hW
  have ha := Nat.div_add_mod a W
  have hb := Nat.div_add_mod b W
  have hq : a / W = b / W := by
    rcases Nat.lt_trichotomy (a / W) (b / W) with hlt | heq | hgt
    · exfalso
      have : W * (a / W + 1) ≤ W * (b / W) := Nat.mul_le_mul_left W hlt
      rw [Nat.mul_add, Nat.mul_one] at this
      omega
    · exact heq
    · exfalso
      have : W * (b / W + 1) ≤ W * (a / W) := Nat.mul_le_mul_left W hgt
      rw [Nat.mul_add, Nat.mul_one] at this
      omega
  rw [hq, h] at ha
  omega

/-- Every COUNT strictly below the advanced `tx_next_ack` is absent from
the window (the stop condition of the advance loop). -/
theorem advance_tx_next_ack_skipped (W : Nat) (w : Window Nat) (txNext : Nat) :
    ∀ ack x, ack ≤ x → x < advance_tx_next_ack W w txNext ack →
      has_sn W w x = false := by
  have H : ∀ fuel ack, txNext - ack ≤ fuel → ∀ x, ack ≤ x →
      x < advance_tx_next_ack W w txNext ack → has_sn W w x = false := by
    intro fuel
    induction fuel with
    | zero =>
      intro ack h1 x hx1 hx2
      unfold advance_tx_next_ack at hx2
      rw [dif_neg (fun hc => absurd hc.1 (by omega))] at hx2
      omega
    | succ f ih =>
      intro ack h1 x hx1 hx2
      unfold advance_tx_next_ack at hx2
      by_cases hc : ack < txNext ∧ has_sn W w ack = false
      · rw [dif_pos hc] at hx2
        rcases Nat.eq_or_lt_of_le hx1 with heq | hlt
        · exact heq ▸ hc.2
        · exact ih (ack + 1) (by omega) x (by omega) hx2
      · rw [dif_neg hc] at hx2
        omega
  exact fun ack x hx1 hx2 => H (txNext - ack) ack (le_refl _) x hx1 hx2

/-- With a discard timer configured, `discard_pdu cfg s c` preserves
window well-formedness and `tx_next`, never moves `tx_next_ack` back,
and a COUNT remains buffered afterwards iff it was buffered before and
differs from `c`. -/
theorem discard_pdu_spec (cfg : TxConfig) (s : TxState) (c : Nat)
    (hd : cfg.discardTimer.isSome = true) (hwf : TxWindowWf cfg.W s) :
    TxWindowWf cfg.W (discard_pdu cfg s c).1 ∧
    (discard_pdu cfg s c).1.txNext = s.txNext ∧
    s.txNextAck ≤ (discard_pdu cfg s c).1.txNextAck ∧
    (∀ c' : Nat, tx_holds cfg.W (discard_pdu cfg s c).1.window c' ↔
      (tx_holds cfg.W s.window c' ∧ c' ≠ c)) := by
  obtain ⟨w1, w2, w3, w4⟩ := hwf
  have hdn : cfg.discardTimer.isNone = false := by
    cases hcfg : cfg.discardTimer
    · rw [hcfg] at hd; cases hd
    · rfl
  unfold discard_pdu
  rw [hdn]
  rw [if_neg (by simp)]
  by_cases hg1 : c < s.txNextAck ∨ s.txNext ≤ c
  · rw [if_pos hg1]
    have hnh : ¬ tx_holds cfg.W s.window c := by
      intro hh
      obtain ⟨_, hb, hc'⟩ := w4 (c % cfg.W) c hh
      omega
    refine ⟨⟨w1, w2, w3, w4⟩, rfl, le_refl _, ?_⟩
    intro c'
    constructor
    · intro hh
      refine ⟨hh, ?_⟩
      intro heq
      exact hnh (heq ▸ hh)
    · exact fun hh => hh.1
  rw [if_neg hg1]
  by_cases hg2 : has_sn cfg.W s.window c = false
  · rw [if_pos hg2]
    have hnh : ¬ tx_holds cfg.W s.window c := by
      intro hh
      unfold tx_holds at hh
      unfold has_sn at hg2
      rw [hh] at hg2
      cases hg2
    refine ⟨⟨w1, w2, w3, w4⟩, rfl, le_refl _, ?_⟩
    intro c'
    constructor
    · intro hh
      refine ⟨hh, ?_⟩
      intro heq
      exact hnh (heq ▸ hh)
    · exact fun hh => hh.1
  rw [if_neg hg2]
  dsimp only
  -- the occupied slot holds exactly `c`
  have hslot : s.window (c % cfg.W) = some c := by
    unfold has_sn at hg2
    rcases hs : s.window (c % cfg.W) with _ | c''
    · rw [hs] at hg2; simp at hg2
    · obtain ⟨hm, hlo, hhi⟩ := w4 (c % cfg.W) c'' hs
      have hcc : c'' = c := by
        apply eq_of_mod_eq_of_close cfg.W c'' c (by rw [hm])
        · omega
        · omega
      rw [hcc]
  -- bounds of the advanced tx_next_ack
  have hadv := advance_tx_next_ack_bounds cfg.W (remove_sn cfg.W s.window c)
    s.txNext s.txNextAck (by omega)
  have hskip := advance_tx_next_ack_skipped cfg.W (remove_sn cfg.W s.window c)
    s.txNext s.txNextAck
  refine ⟨⟨?_, ?_, ?_, ?_⟩, rfl, by omega, ?_⟩
  · dsimp only
    split_ifs <;> omega
  · dsimp only
    split_ifs <;> omega
  · dsimp only
    omega
  · -- entries of the pruned window
    intro i c'' hi
    dsimp only at hi ⊢
    have hi' := hi
    unfold remove_sn at hi'
    by_cases hieq : i = c % cfg.W
    · rw [if_pos hieq] at hi'; cases hi'
    · rw [if_neg hieq] at hi'
      obtain ⟨hm, hlo, hhi⟩ := w4 i c'' hi'
      refine ⟨hm, ?_, hhi⟩
      by_contra hlt
      push_neg at hlt
      have hsk := hskip c'' (by omega) (by omega)
      unfold has_sn at hsk
      rw [hm] at hsk
      rw [hi] at hsk
      cases hsk
  · intro c'
    constructor
    · intro hh
      unfold tx_holds at hh ⊢
      unfold remove_sn at hh
      by_cases hieq : c' % cfg.W = c % cfg.W
      · rw [if_pos hieq] at hh; cases hh
      · rw [if_neg hieq] at hh
        exact ⟨hh, fun heq => hieq (heq ▸ rfl)⟩
    · intro ⟨hh, hne⟩
      unfold tx_holds at hh ⊢
      unfold remove_sn
      by_cases hieq : c' % cfg.W = c % cfg.W
      · exfalso
        rw [hieq] at hh
        rw [hslot] at hh
        cases hh
        exact hne rfl
      · rw [if_neg hieq]
        exact hh

/-- The unconditional discard sweep of `handle_status_report`: after
`discard_range` over `[a, fmc)`, a COUNT is buffered iff it was buffered
before and lies outside `[a, fmc)`; well-formedness and `tx_next` are
preserved and `tx_next_ack` only advances. -/
theorem discard_range_spec (cfg : TxConfig) (fmc : Nat)
    (hd : cfg.discardTimer.isSome = true) :
    ∀ (a : Nat) (s : TxState), TxWindowWf cfg.W s →
      TxWindowWf cfg.W (discard_range cfg s a fmc).1 ∧
      (discard_range cfg s a fmc).1.txNext = s.txNext ∧
      s.txNextAck ≤ (discard_range cfg s a fmc).1.txNextAck ∧
      ∀ c' : Nat, tx_holds cfg.W (discard_range cfg s a fmc).1.window c' ↔
        (tx_holds cfg.W s.window c' ∧ ¬(a ≤ c' ∧ c' < fmc)) := by
  have H : ∀ (fuel a : Nat) (s : TxState), fmc - a ≤ fuel → TxWindowWf cfg.W s →
      TxWindowWf cfg.W (discard_range cfg s a fmc).1 ∧
      (discard_range cfg s a fmc).1.txNext = s.txNext ∧
      s.txNextAck ≤ (discard_range cfg s a fmc).1.txNextAck ∧
      ∀ c' : Nat, tx_holds cfg.W (discard_range cfg s a fmc).1.window c' ↔
        (tx_holds cfg.W s.window c' ∧ ¬(a ≤ c' ∧ c' < fmc)) := by
    intro fuel
    induction fuel with
    | zero =>
      intro a s h1 hwf
      unfold discard_range
      rw [dif_neg (by omega)]
      refine ⟨hwf, rfl, le_refl _, ?_⟩
      intro c'
      constructor
      · intro hh
        exact ⟨hh, by omega⟩
      · exact fun hh => hh.1
    | succ f ih =>
      intro a s h1 hwf
      unfold discard_range
      by_cases hc : a < fmc
      · rw [dif_pos hc]
        dsimp only
        obtain ⟨hwf1, hnx1, hak1, hm1⟩ := discard_pdu_spec cfg s a hd hwf
        rcases hdp : discard_pdu cfg s a with ⟨s1, d⟩
        rw [hdp] at hwf1 hnx1 hak1 hm1
        dsimp only at hwf1 hnx1 hak1 hm1
        obtain ⟨hwf2, hnx2, hak2, hm2⟩ := ih (a + 1) s1 (by omega) hwf1
        rcases hdr : discard_range cfg s1 (a + 1) fmc with ⟨s2, d2⟩
        rw [hdr] at hwf2 hnx2 hak2 hm2
        dsimp only at hwf2 hnx2 hak2 hm2 ⊢
        refine ⟨hwf2, by omega, by omega, ?_⟩
        intro c'
        rw [hm2 c', hm1 c']
        constructor
        · intro ⟨⟨hh, hne⟩, hr⟩
          exact ⟨hh, by omega⟩
        · intro ⟨hh, hr⟩
          exact ⟨⟨hh, by omega⟩, by omega⟩
      · rw [dif_neg hc]
        refine ⟨hwf, rfl, le_refl _, ?_⟩
        intro c'
        constructor
        · intro hh
          exact ⟨hh, by omega⟩
        · exact fun hh => hh.1
  exact fun a s hwf => H (fmc - a) a s (le_refl _) hwf

/-- The bitmap walk of `handle_status_report`: position `i` of the
bitmap covers COUNT `fmc + 1 + i`, and a COUNT stays buffered iff it was
buffered before and its bit is not set (COUNTs outside the bitmap are
untouched). -/
theorem apply_bitmap_spec (cfg : TxConfig)
    (hd : cfg.discardTimer.isSome = true) :
    ∀ (B : List Bool) (fmc : Nat) (s : TxState), TxWindowWf cfg.W s →
      fmc + B.length < U32 →
      TxWindowWf cfg.W (apply_bitmap cfg s fmc B).1 ∧
      (apply_bitmap cfg s fmc B).1.txNext = s.txNext ∧
      s.txNextAck ≤ (apply_bitmap cfg s fmc B).1.txNextAck ∧
      ∀ c' : Nat, tx_holds cfg.W (apply_bitmap cfg s fmc B).1.window c' ↔
        (tx_holds cfg.W s.window c' ∧
         ¬∃ i : Nat, i < B.length ∧ B.getD i false = true ∧ c' = fmc + 1 + i) := by
  intro B
  induction B with
  | nil =>
    intro fmc s hwf hb
    refine ⟨hwf, rfl, le_refl _, ?_⟩
    intro c'
    constructor
    · intro hh
      exact ⟨hh, by rintro ⟨i, hi, _⟩; simp at hi⟩
    · exact fun hh => hh.1
  | cons b rest ih =>
    intro fmc s hwf hb
    have hfmc1 : (fmc + 1) % U32 = fmc + 1 := by
      apply Nat.mod_eq_of_lt
      simp at hb
      omega
    show TxWindowWf cfg.W (apply_bitmap cfg s fmc (b :: rest)).1 ∧ _
    unfold apply_bitmap
    rw [hfmc1]
    cases b with
    | true =>
      rw [if_pos rfl]
      dsimp only
      obtain ⟨hwf1, hnx1, hak1, hm1⟩ := discard_pdu_spec cfg s (fmc + 1) hd hwf
      rcases hdp : discard_pdu cfg s (fmc + 1) with ⟨s1, d⟩
      rw [hdp] at hwf1 hnx1 hak1 hm1
      dsimp only at hwf1 hnx1 hak1 hm1
      obtain ⟨hwf2, hnx2, hak2, hm2⟩ :=
        ih (fmc + 1) s1 hwf1 (by simp at hb ⊢; omega)
      rcases hab : apply_bitmap cfg s1 (fmc + 1) rest with ⟨s2, d2⟩
      rw [hab] at hwf2 hnx2 hak2 hm2
      dsimp only at hwf2 hnx2 hak2 hm2 ⊢
      refine ⟨hwf2, by omega, by omega, ?_⟩
      intro c'
      rw [hm2 c', hm1 c']
      constructor
      · intro ⟨⟨hh, hne⟩, hr⟩
        refine ⟨hh, ?_⟩
        rintro ⟨i, hi, hbi, hc⟩
        cases i with
        | zero => exact hne (by omega)
        | succ j =>
          exact hr ⟨j, by simp at hi; omega,
            by simpa using hbi, by omega⟩
      · intro ⟨hh, hr⟩
        refine ⟨⟨hh, ?_⟩, ?_⟩
        · intro hc
          exact hr ⟨0, by simp, by simp, by omega⟩
        · rintro ⟨j, hj, hbj, hc⟩
          exact hr ⟨j + 1, by simp; omega, by simpa using hbj, by omega⟩
    | false =>
      rw [if_neg (by simp)]
      obtain ⟨hwf2, hnx2, hak2, hm2⟩ :=
        ih (fmc + 1) s hwf (by simp at hb ⊢; omega)
      refine ⟨hwf2, hnx2, hak2, ?_⟩
      intro c'
      rw [hm2 c']
      constructor
      · intro ⟨hh, hr⟩
        refine ⟨hh, ?_⟩
        rintro ⟨i, hi, hbi, hc⟩
        cases i with
        | zero => simp at hbi
        | succ j =>
          exact hr ⟨j, by simp at hi; omega,
            by simpa using hbi, by omega⟩
      · intro ⟨hh, hr⟩
        refine ⟨hh, ?_⟩
        rintro ⟨j, hj, hbj, hc⟩
        exact hr ⟨j + 1, by simp; omega, by simpa using hbj, by omega⟩

/-- Reading `n` bits off a stream whose first `n` bits are `l1` yields
the MSB-first value of `l1` and the rest of the stream. -/
theorem read_bits_append (l1 l2 : List Bool) (n : Nat) (h : l1.length = n) :
    read_bits n (l1 ++ l2) = some (bits_to_nat l1, l2) := by
  unfold read_bits
  rw [if_pos (by simp; omega)]
  subst h
  rw [List.take_left, List.drop_left]

/-- On a well-formed status report, `handle_status_report` passes all
header checks and reduces to the `discard_range` sweep followed by the
bitmap walk. -/
theorem handle_status_report_wire (cfg : TxConfig) (s : TxState)
    (fmc : Nat) (bitmap : List Bool) (hfmc : fmc < U32) :
    handle_status_report cfg s (status_report_wire fmc bitmap) =
      (let (s1, d1) := discard_range cfg s s.txNextAck fmc
       let (s2, d2) := apply_bitmap cfg s1 fmc bitmap
       (s2, d1 ++ d2)) := by
  unfold handle_status_report status_report_wire
  rw [List.append_assoc, List.append_assoc, List.append_assoc,
    read_bits_append _ _ 1 (pack_bits_length 0 1)]
  have h0 : ∀ k, bits_to_nat (pack_bits 0 k) = 0 := by
    intro k
    rw [bits_to_nat_pack_bits]
    simp
  rw [h0]
  dsimp only
  rw [if_neg (by decide)]
  rw [read_bits_append _ _ 3 (pack_bits_length 0 3), h0]
  dsimp only
  rw [if_neg (by decide)]
  rw [read_bits_append _ _ 4 (pack_bits_length 0 4), h0]
  dsimp only
  rw [if_neg (by decide)]
  rw [read_bits_append _ _ 32 (pack_bits_length fmc 32),
    bits_to_nat_pack_bits]
  have hm : fmc % 2 ^ 32 = fmc := Nat.mod_eq_of_lt hfmc
  rw [hm]

/-- C4: for every well-formed status report with first-missing-count
`FMC` and bitmap `B` received by a well-formed transmitter with a
discard timer configured, `handle_status_report` leaves COUNT `c`
buffered iff it was buffered before, is not in the unconditional discard
range `[tx_next_ack, FMC)`, and no set bitmap bit `i` covers it
(`c = FMC + 1 + i`): the `[tx_next_ack, FMC)` sweep discards via
`discard_pdu`, bit `i = 1` discards `FMC + 1 + i`, and every COUNT
whose bit is 0 is left untouched. -/
theorem status_report_discard_semantics (cfg : TxConfig) (s : TxState)
    (fmc : Nat) (B : List Bool)
    (hd : cfg.discardTimer.isSome = true)
    (hwf : TxWindowWf cfg.W s)
    (hb : fmc + B.length < U32) :
    ∀ c : Nat,
      tx_holds cfg.W
        (handle_status_report cfg s (status_report_wire fmc B)).1.window c ↔
      (tx_holds cfg.W s.window c ∧
       ¬(s.txNextAck ≤ c ∧ c < fmc) ∧
       ¬∃ i : Nat, i < B.length ∧ B.getD i false = true ∧ c = fmc + 1 + i) := by
  have hfmc : fmc < U32 := by omega
  rw [handle_status_report_wire cfg s fmc B hfmc]
  obtain ⟨hwf1, _, _, hm1⟩ := discard_range_spec cfg fmc hd s.txNextAck s hwf
  rcases hdr : discard_range cfg s s.txNextAck fmc with ⟨s1, d1⟩
  rw [hdr] at hwf1 hm1
  dsimp only at hwf1 hm1 ⊢
  obtain ⟨_, _, _, hm2⟩ := apply_bitmap_spec cfg hd B fmc s1 hwf1 hb
  rcases hab : apply_bitmap cfg s1 fmc B with ⟨s2, d2⟩
  rw [hab] at hm2
  dsimp only at hm2 ⊢
  intro c
  rw [hm2 c, hm1 c]
  tauto

/-- C4 witness, the spec's scenario 5: with COUNTs 8, 9, 11, 12, 13
buffered and `tx_next_ack = 8`, a status report with `FMC = 10` and
bitmap `[1,0,1]` discards 8 and 9 (below FMC), discards 11 and 13
(bit = 1), and retains 12 (bit = 0). -/
theorem status_report_discard_semantics_witness :
    scenario5_cfg.discardTimer.isSome = true ∧
    TxWindowWf scenario5_cfg.W scenario5_state ∧
    10 + ([true, false, true] : List Bool).length < U32 ∧
    ¬ tx_holds scenario5_cfg.W
      (handle_status_report scenario5_cfg scenario5_state
        (status_report_wire 10 [true, false, true])).1.window 8 ∧
    ¬ tx_holds scenario5_cfg.W
      (handle_status_report scenario5_cfg scenario5_state
        (status_report_wire 10 [true, false, true])).1.window 9 ∧
    ¬ tx_holds scenario5_cfg.W
      (handle_status_report scenario5_cfg scenario5_state
        (status_report_wire 10 [true, false, true])).1.window 11 ∧
    tx_holds scenario5_cfg.W
      (handle_status_report scenario5_cfg scenario5_state
        (status_report_wire 10 [true, false, true])).1.window 12 ∧
    ¬ tx_holds scenario5_cfg.W
      (handle_status_report scenario5_cfg scenario5_state
        (status_report_wire 10 [true, false, true])).1.window 13 := by
  have hd : scenario5_cfg.discardTimer.isSome = true := by decide
  have hwf : TxWindowWf scenario5_cfg.W scenario5_state := by
    refine ⟨by decide, by decide, by decide, ?_⟩
    intro i c hic
    show c % 2048 = i ∧ 8 ≤ c ∧ c < 14
    simp only [scenario5_state, add_sn, empty_window] at hic
    split_ifs at hic <;> cases hic <;> omega
  have hb : 10 + ([true, false, true] : List Bool).length < U32 := by decide
  have h := status_report_discard_semantics scenario5_cfg scenario5_state
    10 [true, false, true] hd hwf hb
  refine ⟨hd, hwf, hb, ?_, ?_, ?_, ?_, ?_⟩
  · intro hh
    exact ((h 8).mp hh).2.1 ⟨by decide, by decide⟩
  · intro hh
    exact ((h 9).mp hh).2.1 ⟨by decide, by decide⟩
  · intro hh
    exact ((h 11).mp hh).2.2 ⟨0, by decide, by decide, by decide⟩
  · refine (h 12).mpr ⟨by rfl, ?_, ?_⟩
    · rintro ⟨_, h2⟩
      omega
    · rintro ⟨i, hi, hbi, hc⟩
      have : i = 1 := by omega
      subst this
      exact absurd hbi (by decide)
  · intro hh
    exact ((h 13).mp hh).2.2 ⟨2, by decide, by decide, by decide⟩

end Pdcp
